import Mathlib

/-!
# armips: file, position, incbin, align/fill, header size and object import directives

A shallow embedding of `Commands/CDirectiveFile.cpp`.  Every directive is a
record of its C++ members; `Validate` and `Encode` are functions that take the
directive and the state of the global collaborators (`g_fileManager`, `Logger`,
`Arch`) and return the updated directive and state.  Unsigned 64-bit members
are natural numbers; sums and differences of the source are reduced modulo
`2 ^ 64` explicitly.
-/

namespace Armips

/-! ## Machine integers -/

/-- Number of values of the C++ type `u64`. -/
def u64Size : Nat := 2 ^ 64

/-- Conversion of a number to `u64`. -/
def toU64 (n : Nat) : Nat := n % 2 ^ 64

/-- Addition of two `u64` values, `a + b` in the source. -/
def u64add (a b : Nat) : Nat := (a + b) % 2 ^ 64

/-- Subtraction of two `u64` values, `a - b` in the source. -/
def u64sub (a b : Nat) : Nat := (a + 2 ^ 64 - b % 2 ^ 64) % 2 ^ 64

/-- Conversion `(long)x` of a `u64` to a signed 64-bit `long` (LP64 data
model, two's complement). -/
def toLong (x : Nat) : Int :=
  if x % 2 ^ 64 < 2 ^ 63 then ((x % 2 ^ 64 : Nat) : Int) else ((x % 2 ^ 64 : Nat) : Int) - 2 ^ 64

/-! ## Collaborators: logger, architecture, file manager -/

/-- Severities of `Logger`, as used in this file. -/
inductive ErrorType where
  | Warning
  | Error
  | FatalError
  deriving DecidableEq, Repr

/-- Modelled from the spec: an output target (class `AssemblerFile`, not in
this file).  The spec lists its attributes as name, original name (copy
source), header size and whether it has a fixed virtual-address mapping;
`created` records whether it was constructed as a new file. -/
structure AssemblerFile where
  fileName : String
  originalFileName : String
  headerSize : Nat
  fixedVirtualAddress : Bool
  created : Bool
  deriving DecidableEq, Repr

/-- One observable call made by a directive on a collaborator, with its
arguments.  Files are referred to by their pointer: `none` is `nullptr`,
`some i` is the `i`-th file constructed. Diagnostics are recorded by
severity and format string; `updateSection` stands for the statement
`updateSection(++Global.Section)`. -/
inductive Event where
  | printError (type : ErrorType) (text : String)
  | queueError (type : ErrorType) (text : String)
  | nextSection
  | addFile (file : Nat)
  | openFile (file : Option Nat) (onlyCheck : Bool)
  | closeFile
  | seekPhysical (position : Nat)
  | seekVirtual (position : Nat)
  | advanceMemory (bytes : Nat)
  | write (bytes : List (Option Nat))
  | setHeaderSize (file : Nat) (size : Nat)
  | updateSection
  deriving DecidableEq, Repr

/-- Modelled from the spec: the state of the global collaborators
(`g_fileManager`, `Logger`, `Arch`), none of which is in this file.  The spec
gives the address-space manager the set of known files, at most one currently
open file and a virtual cursor.  `trace` lists every call made so far, oldest
first.  A byte of output is `some b`, or `none` when it was copied from memory
that was never initialised. -/
structure World where
  virtualAddress : Nat
  files : List AssemblerFile
  activeFile : Option Nat
  trace : List Event
  deriving DecidableEq, Repr

namespace World

/-- Appends a call to the trace. -/
def log (w : World) (e : Event) : World := { w with trace := w.trace ++ [e] }

/-- Call of `Logger::printError(type, text, ...)`. -/
def printError (w : World) (type : ErrorType) (text : String) : World :=
  w.log (.printError type text)

/-- Call of `Logger::queueError(type, text, ...)`. -/
def queueError (w : World) (type : ErrorType) (text : String) : World :=
  w.log (.queueError type text)

/-- Call of `Arch->NextSection()`. -/
def nextSection (w : World) : World := w.log .nextSection

/-- Call of `g_fileManager->getVirtualAddress()`. -/
def getVirtualAddress (w : World) : Nat := w.virtualAddress

/-- Modelled from the spec: `g_fileManager->advanceMemory(n)` (not in this
file) "moves the virtual cursor forward by `n` without writing bytes". -/
def advanceMemory (w : World) (bytes : Nat) : World :=
  { w with virtualAddress := u64add w.virtualAddress bytes,
           trace := w.trace ++ [.advanceMemory bytes] }

/-- Modelled from the spec: `g_fileManager->write(data, length)` (not in this
file) "appends to the current file's output buffer at the current cursor and
advances it". -/
def write (w : World) (bytes : List (Option Nat)) : World :=
  { w with virtualAddress := u64add w.virtualAddress bytes.length,
           trace := w.trace ++ [.write bytes] }

/-- Arguments of the `advanceMemory` calls of a trace, oldest first. -/
def advances : List Event → List Nat
  | [] => []
  | .advanceMemory n :: es => n :: advances es
  | _ :: es => advances es

/-- All bytes written by the `write` calls of a trace, in order. -/
def written : List Event → List (Option Nat)
  | [] => []
  | .write bs :: es => bs ++ written es
  | _ :: es => written es

/-- The diagnostics of a trace with the given severity, printed or queued. -/
def reports (type : ErrorType) : List Event → List String
  | [] => []
  | .printError t s :: es => if t = type then s :: reports type es else reports type es
  | .queueError t s :: es => if t = type then s :: reports type es else reports type es
  | _ :: es => reports type es

end World

/-- Modelled from the spec: an `Expression` (class not in this file) exposes
"was a value supplied" and "evaluate to an integer, fallible".  `value` is the
outcome of evaluating it against the current symbol table, `none` when the
evaluation fails. -/
structure Expression where
  loaded : Bool
  value : Option Nat
  deriving DecidableEq, Repr

namespace Expression

/-- The expression of a parameter that was not supplied. -/
def empty : Expression := { loaded := false, value := none }

/-- Call of `isLoaded()`. -/
def isLoaded (e : Expression) : Bool := e.loaded

/-- Call of `evaluateInteger(dest)` for a `u64` destination: returns whether
the evaluation succeeded and the content of `dest` afterwards, which is left
as it was on failure. -/
def evaluateInteger (e : Expression) (dest : Nat) : Bool × Nat :=
  match e.loaded, e.value with
  | true, some n => (true, toU64 n)
  | _, _ => (false, dest)

end Expression

/-- Modelled from the spec: `isPowerOfTwo` (declared outside this file) tells
whether a `u64` is a power of two, that is one of `2 ^ 0`, ..., `2 ^ 63`. -/
def isPowerOfTwo (n : Nat) : Bool := (List.range 64).any (fun k => n == 2 ^ k)

/-! ## CDirectiveAlignFill -/

/-- The `CDirectiveAlignFill::Mode` enumeration. -/
inductive Mode where
  | Align
  | Fill
  deriving DecidableEq, Repr

/-- Members of `CDirectiveAlignFill`. -/
structure CDirectiveAlignFill where
  mode : Mode
  valueExpression : Expression
  fillExpression : Expression
  value : Nat
  finalSize : Nat
  fillByte : Nat
  deriving DecidableEq, Repr

namespace CDirectiveAlignFill

/-- Constructor `CDirectiveAlignFill(u64 value, Mode mode)`. -/
def new (value : Nat) (mode : Mode) : CDirectiveAlignFill :=
  { mode := mode, valueExpression := Expression.empty, fillExpression := Expression.empty,
    value := toU64 value, finalSize := 0, fillByte := 0 }

/-- Constructor `CDirectiveAlignFill(Expression& value, Mode mode)`. -/
def newExpr (value : Expression) (mode : Mode) : CDirectiveAlignFill :=
  { new 0 mode with valueExpression := value }

/-- Constructor `CDirectiveAlignFill(Expression& value, Expression& fillValue, Mode mode)`. -/
def newExprFill (value fillValue : Expression) (mode : Mode) : CDirectiveAlignFill :=
  { newExpr value mode with fillExpression := fillValue }

/-- End of `Validate` (source lines 328-333): the reservation of `finalSize`
bytes and the comparison with `oldSize`. -/
def validateReserve (oldSize : Nat) (d : CDirectiveAlignFill) (w : World) :
    Bool × CDirectiveAlignFill × World :=
  (oldSize != d.finalSize, d, (w.nextSection).advanceMemory d.finalSize)

/-- Part of `Validate` after the `switch` (source lines 319-326): the fill
expression. -/
def validateFill (oldSize : Nat) (d : CDirectiveAlignFill) (w : World) :
    Bool × CDirectiveAlignFill × World :=
  if d.fillExpression.isLoaded then
    match d.fillExpression.evaluateInteger d.fillByte with
    | (false, _) => (false, d, w.printError .FatalError "Invalid fill value")
    | (true, b) => validateReserve oldSize { d with fillByte := b } w
  else validateReserve oldSize d w

/-- Middle part of `Validate` (source lines 300-317): the `switch` on the mode
that computes `finalSize`. -/
def validateMode (d : CDirectiveAlignFill) (w : World) :
    Bool × CDirectiveAlignFill × World :=
  let oldSize := d.finalSize
  match d.mode with
  | .Align =>
    if isPowerOfTwo d.value == false then
      (false, d, w.printError .Error "Invalid alignment %d")
    else
      let mod := w.getVirtualAddress % d.value
      validateFill oldSize { d with finalSize := if mod != 0 then u64sub d.value mod else 0 } w
  | .Fill => validateFill oldSize { d with finalSize := d.value } w

/-- The function `CDirectiveAlignFill::Validate`: returns the `changed` flag,
the directive and the collaborators afterwards. -/
def Validate (d : CDirectiveAlignFill) (w : World) : Bool × CDirectiveAlignFill × World :=
  if d.valueExpression.isLoaded then
    match d.valueExpression.evaluateInteger d.value with
    | (false, _) =>
      (false, d, w.printError .FatalError
        (if d.mode = .Fill then "Invalid size" else "Invalid alignment"))
    | (true, v) => validateMode { d with value := v } w
  else validateMode d w

/-- The `while` loop of `Encode`: as long as more than 128 bytes remain, write
the whole buffer. Returns what remains and the collaborators. -/
def encodeLoop (buffer : List (Option Nat)) (n : Nat) (w : World) : Nat × World :=
  if 128 < n then encodeLoop buffer (n - 128) (w.write (buffer.take 128)) else (n, w)
termination_by n
decreasing_by omega

/-- Effect of `memset(buffer, c, count)` on a local buffer: the first `count`
bytes become `(unsigned char)c`. -/
def memset (buffer : List (Option Nat)) (c : Nat) (count : Nat) : List (Option Nat) :=
  List.replicate (min count buffer.length) (some (c % 256)) ++ buffer.drop count

/-- The function `CDirectiveAlignFill::Encode`.  The local `buffer[128]` starts
uninitialised. -/
def Encode (d : CDirectiveAlignFill) (w : World) : World :=
  let buffer0 : List (Option Nat) := List.replicate 128 none
  let n := d.finalSize
  let buffer := memset buffer0 d.fillByte (if 128 < n then 128 else n)
  let r := encodeLoop buffer n w
  r.2.write (buffer.take r.1)

end CDirectiveAlignFill

/-! ## CDirectiveIncbin -/

/-- Modelled from the spec: `ByteArray::fromFile(fileName, start, size)` (not
in this file) reads "`size` bytes starting at `start` from the source file";
the result is shorter when the file ends before `start + size` ("a short
read") and empty when the offset is negative.  `file` is the content of the
file named `fileName`. -/
def ByteArray.fromFile (file : List Nat) (start : Int) (size : Nat) : List Nat :=
  if start < 0 then [] else (file.drop start.toNat).take size

/-- Members of `CDirectiveIncbin`. -/
structure CDirectiveIncbin where
  fileName : String
  fileSize : Nat
  startExpression : Expression
  sizeExpression : Expression
  start : Nat
  size : Nat
  deriving DecidableEq, Repr

namespace CDirectiveIncbin

/-- Part of `Validate` at source lines 229-233: the truncation of `size`
when `start + size`, computed in `u64`, is above `fileSize`. -/
def validateTruncate (d : CDirectiveIncbin) (w : World) : CDirectiveIncbin × World :=
  if u64add d.start d.size > d.fileSize then
    ({ d with size := u64sub d.fileSize d.start },
      w.queueError .Warning "Read size truncated due to file size")
  else (d, w)

/-- End of `Validate` (source lines 229-237): truncation, then the reservation
of `size` bytes. -/
def validateReserve (d : CDirectiveIncbin) (w : World) : Bool × CDirectiveIncbin × World :=
  (false, (validateTruncate d w).1,
    ((validateTruncate d w).2.nextSection).advanceMemory (validateTruncate d w).1.size)

/-- Part of `Validate` at source lines 218-227: the size expression or its
default. -/
def validateSize (d : CDirectiveIncbin) (w : World) : Bool × CDirectiveIncbin × World :=
  if d.sizeExpression.isLoaded then
    match d.sizeExpression.evaluateInteger d.size with
    | (false, _) => (false, d, w.queueError .Error "Invalid size expression")
    | (true, n) => validateReserve { d with size := n } w
  else validateReserve { d with size := u64sub d.fileSize d.start } w

/-- The function `CDirectiveIncbin::Validate`: returns the `changed` flag, the
directive and the collaborators afterwards.  The locals `oldStart` and
`oldSize` of the source are never read. -/
def Validate (d : CDirectiveIncbin) (w : World) : Bool × CDirectiveIncbin × World :=
  if d.startExpression.isLoaded then
    match d.startExpression.evaluateInteger d.start with
    | (false, _) => (false, d, w.queueError .Error "Invalid position expression")
    | (true, s) =>
      if s > d.fileSize then
        (false, { d with start := s }, w.queueError .Error "Start position past end of file")
      else validateSize { d with start := s } w
  else validateSize { d with start := 0 } w

/-- The function `CDirectiveIncbin::Encode`; `file` is the content of the
source file when it is read. -/
def Encode (file : List Nat) (d : CDirectiveIncbin) (w : World) : World :=
  if d.size != 0 then
    if (ByteArray.fromFile file (toLong d.start) d.size).length != d.size then
      w.printError .Error "Could not read file \"%s\""
    else w.write ((ByteArray.fromFile file (toLong d.start) d.size).map some)
  else w

end CDirectiveIncbin

/-! ## File manager operations used by the other directives -/

namespace World

/-- Modelled from the spec: `g_fileManager->openFile(file, onlyCheck)` (not in
this file) "closes any currently open file first, then makes `file` current".
What it does to the cursors is not modelled; the call is recorded. -/
def openFile (w : World) (file : Option Nat) (onlyCheck : Bool) : World :=
  { w with activeFile := file, trace := w.trace ++ [.openFile file onlyCheck] }

/-- Modelled from the spec: `g_fileManager->closeFile()` (not in this file);
"Close with no file currently open raises Error", otherwise no file is open
afterwards. -/
def closeFile (w : World) : World :=
  match w.activeFile with
  | none => (w.log .closeFile).queueError .Error "No file opened"
  | some _ => { w with activeFile := none, trace := w.trace ++ [.closeFile] }

/-- Modelled from the spec: `g_fileManager->seekVirtual(position)` (not in
this file) "seeks the virtual cursor". -/
def seekVirtual (w : World) (position : Nat) : World :=
  { w with virtualAddress := position, trace := w.trace ++ [.seekVirtual position] }

/-- Modelled from the spec: `g_fileManager->seekPhysical(position)` (not in
this file) "seeks the physical cursor", which is not modelled; the call is
recorded. -/
def seekPhysical (w : World) (position : Nat) : World := w.log (.seekPhysical position)

/-- Call of `g_fileManager->getOpenFile()`: the open file, `none` for
`nullptr`. -/
def getOpenFile (w : World) : Option Nat := w.activeFile

/-- Call of `file->setHeaderSize(size)` on the file at pointer `file`. -/
def setHeaderSize (w : World) (file : Nat) (size : Nat) : World :=
  match w.files[file]? with
  | some f => { w with files := w.files.set file { f with headerSize := size },
                       trace := w.trace ++ [.setHeaderSize file size] }
  | none => w

end World

/-! ## CDirectiveFile -/

/-- The `CDirectiveFile::Type` enumeration. -/
inductive FileType where
  | Invalid
  | Open
  | Create
  | Copy
  | Close
  deriving DecidableEq, Repr

/-- Members of `CDirectiveFile`; `file` is a pointer, `none` for `nullptr`. -/
structure CDirectiveFile where
  type : FileType
  file : Option Nat
  deriving DecidableEq, Repr

/-- The function `CDirectiveFile::Validate`. -/
def CDirectiveFile.Validate (d : CDirectiveFile) (w : World) : Bool × CDirectiveFile × World :=
  match d.type with
  | .Open | .Create | .Copy => (false, d, (w.nextSection).openFile d.file true)
  | .Close => (false, d, (w.nextSection).closeFile)
  | .Invalid => (false, d, w.nextSection)

/-! ## CDirectivePosition -/

/-- The `CDirectivePosition::Type` enumeration. -/
inductive PositionType where
  | Physical
  | Virtual
  deriving DecidableEq, Repr

/-- Members of `CDirectivePosition`. -/
structure CDirectivePosition where
  type : PositionType
  position : Nat
  deriving DecidableEq, Repr

namespace CDirectivePosition

/-- The function `CDirectivePosition::exec`. -/
def exec (d : CDirectivePosition) (w : World) : World :=
  match d.type with
  | .Physical => w.seekPhysical d.position
  | .Virtual => w.seekVirtual d.position

/-- The function `CDirectivePosition::Validate`. -/
def Validate (d : CDirectivePosition) (w : World) : Bool × CDirectivePosition × World :=
  (false, d, d.exec w.nextSection)

end CDirectivePosition

/-! ## CDirectiveHeaderSize -/

/-- Members of `CDirectiveHeaderSize`. -/
structure CDirectiveHeaderSize where
  headerSize : Nat
  deriving DecidableEq, Repr

namespace CDirectiveHeaderSize

/-- The function `CDirectiveHeaderSize::updateFile`.  The result is `none`
when the function dereferences a pointer that refers to no file, which is what
`openFile->hasFixedVirtualAddress()` does when `getOpenFile()` returns
`nullptr`. -/
def updateFile (d : CDirectiveHeaderSize) (w : World) : Option World :=
  match w.getOpenFile with
  | none => none
  | some p =>
    match w.files[p]? with
    | none => none
    | some f =>
      if !f.fixedVirtualAddress then
        some (w.printError .Error "Header size not applicable for this file")
      else some (w.setHeaderSize p d.headerSize)

/-- The function `CDirectiveHeaderSize::Validate`. -/
def Validate (d : CDirectiveHeaderSize) (w : World) :
    Option (Bool × CDirectiveHeaderSize × World) :=
  match d.updateFile w with
  | none => none
  | some w1 => some (false, d, w1)

end CDirectiveHeaderSize

/-! ## DirectiveObjImport -/

/-- Modelled from the spec: the state of the importer `rel` (class
`ElfRelocator`, not in this file) that `DirectiveObjImport` reads: the
relocated byte buffer returned by `getData()` and the change flag returned by
`hasDataChanged()`. -/
structure ElfRelocator where
  outputData : List Nat
  dataChanged : Bool
  deriving DecidableEq, Repr

/-- The functions called by `DirectiveObjImport` that are not in this file,
taken as parameters.  `relocate r memory` stands for `rel.relocate(memory)`: it
gives the importer afterwards and the content of the local variable `memory`
afterwards, which is `memory` itself unless the callee takes it by reference
and assigns it.  `ctorValidate` and `ctorEncode` are `Validate` and `Encode` of
the constructor command, whose state has type `C`. -/
structure ObjImportOps (C : Type) where
  relocate : ElfRelocator → Nat → ElfRelocator × Nat
  ctorValidate : C → World → Bool × C × World
  ctorEncode : C → World → World

/-- Members of `DirectiveObjImport`; `ctor` is `none` for `nullptr`. -/
structure DirectiveObjImport (C : Type) where
  ctor : Option C
  rel : ElfRelocator

namespace DirectiveObjImport

/-- First statement of `Validate`: `ctor != nullptr && ctor->Validate()`, with
the constructor command and the collaborators afterwards. -/
def validateCtor {C : Type} (ops : ObjImportOps C) (d : DirectiveObjImport C) (w : World) :
    Bool × Option C × World :=
  match d.ctor with
  | none => (false, none, w)
  | some c => ((ops.ctorValidate c w).1, some (ops.ctorValidate c w).2.1,
      (ops.ctorValidate c w).2.2)

/-- The function `DirectiveObjImport::Validate`. -/
def Validate {C : Type} (ops : ObjImportOps C) (d : DirectiveObjImport C) (w : World) :
    Bool × DirectiveObjImport C × World :=
  let rc := validateCtor ops d w
  let memory := rc.2.2.getVirtualAddress
  let rr := ops.relocate d.rel memory
  (rr.1.dataChanged || rc.1, { ctor := rc.2.1, rel := rr.1 },
    rc.2.2.advanceMemory (toU64 rr.2))

/-- The function `DirectiveObjImport::Encode`. -/
def Encode {C : Type} (ops : ObjImportOps C) (d : DirectiveObjImport C) (w : World) : World :=
  let w1 := match d.ctor with
    | none => w
    | some c => ops.ctorEncode c w
  w1.write (d.rel.outputData.map some)

end DirectiveObjImport

/-! ## All directives -/

/-- A directive of one of the six kinds of this file. -/
inductive Directive (C : Type) where
  | file (d : CDirectiveFile)
  | position (d : CDirectivePosition)
  | incbin (d : CDirectiveIncbin)
  | alignFill (d : CDirectiveAlignFill)
  | headerSize (d : CDirectiveHeaderSize)
  | objImport (d : DirectiveObjImport C)

namespace Directive

/-- Virtual call of `Validate`; `none` when the call dereferences a pointer
that refers to no file. -/
def Validate {C : Type} (ops : ObjImportOps C) (d : Directive C) (w : World) :
    Option (Bool × Directive C × World) :=
  match d with
  | .file e => some ((e.Validate w).1, .file (e.Validate w).2.1, (e.Validate w).2.2)
  | .position e => some ((e.Validate w).1, .position (e.Validate w).2.1, (e.Validate w).2.2)
  | .incbin e => some ((e.Validate w).1, .incbin (e.Validate w).2.1, (e.Validate w).2.2)
  | .alignFill e => some ((e.Validate w).1, .alignFill (e.Validate w).2.1, (e.Validate w).2.2)
  | .headerSize e =>
    match e.Validate w with
    | none => none
    | some r => some (r.1, .headerSize r.2.1, r.2.2)
  | .objImport e =>
    some ((e.Validate ops w).1, .objImport (e.Validate ops w).2.1, (e.Validate ops w).2.2)

end Directive

/-! ## Constructors, encoding and symbol export -/

namespace World

/-- Allocation `new GenericAssemblerFile(...)`: the file is stored and its
pointer returned. -/
def newFile (w : World) (f : AssemblerFile) : World × Nat :=
  ({ w with files := w.files ++ [f] }, w.files.length)

/-- Call of `g_fileManager->addFile(file)`. -/
def addFile (w : World) (file : Nat) : World := w.log (.addFile file)

/-- The statement `updateSection(++Global.Section)`. -/
def updateSection (w : World) : World := w.log .updateSection

end World

/-- The file-system functions called by this file and defined elsewhere, taken
as parameters: `getFullPathName` resolves a name to an absolute path and
`fileExists` tells whether a path names an existing file. -/
structure FileSystem where
  getFullPathName : String → String
  fileExists : String → Bool

/-- Modelled from the spec: constructor
`GenericAssemblerFile(fileName, headerSize, overwrite)` (not in this file), "a
new AssemblerFile bound to that path", marked as created when `overwrite` is
`true`; a generic file maps virtual addresses through its header size. -/
def GenericAssemblerFile.new (fileName : String) (headerSize : Nat) (overwrite : Bool) :
    AssemblerFile :=
  { fileName := fileName, originalFileName := "", headerSize := headerSize,
    fixedVirtualAddress := true, created := overwrite }

/-- Modelled from the spec: constructor
`GenericAssemblerFile(fileName, originalName, headerSize)` (not in this file)
for a copy: a file bound to `fileName` that starts from the content of
`originalName`. -/
def GenericAssemblerFile.newCopy (fileName originalName : String) (headerSize : Nat) :
    AssemblerFile :=
  { fileName := fileName, originalFileName := originalName, headerSize := headerSize,
    fixedVirtualAddress := true, created := true }

namespace CDirectiveFile

/-- Constructor `CDirectiveFile()`. -/
def new : CDirectiveFile := { type := .Invalid, file := none }

/-- The function `CDirectiveFile::initOpen`. -/
def initOpen (fs : FileSystem) (d : CDirectiveFile) (fileName : String) (memory : Nat)
    (w : World) : CDirectiveFile × World :=
  let fullName := fs.getFullPathName fileName
  if fs.fileExists fullName == false then
    ({ d with type := .Open }, w.printError .Error "File %s not found")
  else
    ({ type := .Open,
       file := some (w.newFile (GenericAssemblerFile.new fileName memory false)).2 },
      (((w.newFile (GenericAssemblerFile.new fileName memory false)).1.addFile
        (w.newFile (GenericAssemblerFile.new fileName memory false)).2).updateSection))

/-- The function `CDirectiveFile::initCreate`. -/
def initCreate (fs : FileSystem) (_d : CDirectiveFile) (fileName : String) (memory : Nat)
    (w : World) : CDirectiveFile × World :=
  let fullName := fs.getFullPathName fileName
  ({ type := .Create,
     file := some (w.newFile (GenericAssemblerFile.new fullName memory true)).2 },
    (((w.newFile (GenericAssemblerFile.new fullName memory true)).1.addFile
      (w.newFile (GenericAssemblerFile.new fullName memory true)).2).updateSection))

/-- The function `CDirectiveFile::initCopy`. -/
def initCopy (fs : FileSystem) (d : CDirectiveFile) (inputName outputName : String)
    (memory : Nat) (w : World) : CDirectiveFile × World :=
  let fullInputName := fs.getFullPathName inputName
  let fullOutputName := fs.getFullPathName outputName
  if fs.fileExists fullInputName == false then
    ({ d with type := .Copy }, w.printError .Error "File %s not found")
  else
    ({ type := .Copy,
       file := some (w.newFile
         (GenericAssemblerFile.newCopy fullOutputName fullInputName memory)).2 },
      (((w.newFile (GenericAssemblerFile.newCopy fullOutputName fullInputName memory)).1.addFile
        (w.newFile
          (GenericAssemblerFile.newCopy fullOutputName fullInputName memory)).2).updateSection))

/-- The function `CDirectiveFile::initClose`. -/
def initClose (d : CDirectiveFile) (w : World) : CDirectiveFile × World :=
  ({ d with type := .Close }, (w.closeFile).updateSection)

/-- The function `CDirectiveFile::Encode`. -/
def Encode (d : CDirectiveFile) (w : World) : World :=
  match d.type with
  | .Open | .Create | .Copy => w.openFile d.file false
  | .Close => w.closeFile
  | .Invalid => w

end CDirectiveFile

namespace CDirectivePosition

/-- Constructor `CDirectivePosition(Type type, u64 position)`.  The member
`position` is assigned after the call of `exec`; `indeterminate` is what the
member holds before that assignment. -/
def new (type : PositionType) (position : Nat) (indeterminate : Nat) (w : World) :
    CDirectivePosition × World :=
  ({ type := type, position := position },
    (exec { type := type, position := indeterminate } w).updateSection)

/-- The function `CDirectivePosition::Encode`. -/
def Encode (d : CDirectivePosition) (w : World) : World := d.exec w.nextSection

end CDirectivePosition

namespace CDirectiveHeaderSize

/-- Constructor `CDirectiveHeaderSize(u64 size)`; `none` as for `updateFile`. -/
def new (size : Nat) (w : World) : Option (CDirectiveHeaderSize × World) :=
  match updateFile { headerSize := size } w with
  | none => none
  | some w1 => some ({ headerSize := size }, w1)

/-- The function `CDirectiveHeaderSize::Encode`. -/
def Encode (d : CDirectiveHeaderSize) (w : World) : Option World := d.updateFile w

end CDirectiveHeaderSize

/-- The kind of a symbol-table entry (`SymbolData::Data8` and its siblings);
only `Data8`, 8-bit data, occurs in this file. -/
inductive DataType where
  | Data8
  | Data16
  | Data32
  deriving DecidableEq, Repr

/-- Modelled from the spec: the symbol-table sink `SymbolData` (not in this
file), "a sink accepting (address, length, kind) triples". -/
structure SymbolData where
  entries : List (Nat × Nat × DataType)
  deriving DecidableEq, Repr

/-- Call of `symData.addData(address, size, type)`. -/
def SymbolData.addData (s : SymbolData) (address size : Nat) (type : DataType) : SymbolData :=
  { entries := s.entries ++ [(address, size, type)] }

/-- The function `CDirectiveAlignFill::writeSymData`. -/
def CDirectiveAlignFill.writeSymData (d : CDirectiveAlignFill) (w : World)
    (symData : SymbolData) : SymbolData :=
  match d.mode with
  | .Align => symData
  | .Fill => symData.addData w.getVirtualAddress d.value .Data8

/-- The function `CDirectiveIncbin::writeSymData`. -/
def CDirectiveIncbin.writeSymData (d : CDirectiveIncbin) (w : World)
    (symData : SymbolData) : SymbolData :=
  symData.addData w.getVirtualAddress d.size .Data8

/-! ## Theorems -/

/-! ### Arithmetic and collaborator lemmas -/

theorem u64sub_of_le {a b : Nat} (h : b ≤ a) (ha : a < 2 ^ 64) : u64sub a b = a - b := by
  unfold u64sub
  omega

theorem toU64_of_lt {n : Nat} (h : n < 2 ^ 64) : toU64 n = n := by
  unfold toU64
  omega

theorem isPowerOfTwo_iff (n : Nat) : isPowerOfTwo n = true ↔ ∃ k, k < 64 ∧ n = 2 ^ k := by
  unfold isPowerOfTwo
  rw [List.any_eq_true]
  constructor
  · rintro ⟨k, hk, hn⟩
    exact ⟨k, List.mem_range.mp hk, by simpa using hn⟩
  · rintro ⟨k, hk, hn⟩
    exact ⟨k, List.mem_range.mpr hk, by simpa using hn⟩

theorem isPowerOfTwo_pos {n : Nat} (h : isPowerOfTwo n = true) : 0 < n := by
  obtain ⟨k, _, rfl⟩ := (isPowerOfTwo_iff n).mp h
  exact Nat.pos_pow_of_pos k (by decide)

theorem isPowerOfTwo_lt {n : Nat} (h : isPowerOfTwo n = true) : n < 2 ^ 64 := by
  obtain ⟨k, hk, rfl⟩ := (isPowerOfTwo_iff n).mp h
  exact Nat.pow_lt_pow_right (by decide) hk

/-- Padding arithmetic: `v - a % v` brings `a` to a multiple of `v`. -/
theorem add_pad_mod (a v : Nat) (hv : 0 < v) : (a + (v - a % v)) % v = 0 := by
  have hlt : a % v < v := Nat.mod_lt a hv
  have hdm : v * (a / v) + a % v = a := Nat.div_add_mod a v
  have h : a + (v - a % v) = v * (a / v + 1) := by
    rw [Nat.mul_add, Nat.mul_one]
    omega
  rw [h, Nat.mul_mod_right]

/-- Padding arithmetic: nothing smaller than `v - a % v` reaches a multiple. -/
theorem pad_minimal (a v p : Nat) (hne : a % v ≠ 0) (hp : (a + p) % v = 0) :
    v - a % v ≤ p := by
  by_contra hlt
  have hlt2 : a % v + p < v := by omega
  have h1 : (a + p) % v = (a % v + p) % v := by rw [Nat.mod_add_mod]
  rw [h1, Nat.mod_eq_of_lt hlt2] at hp
  omega

namespace CDirectiveAlignFill

theorem validateFill_finalSize (oldSize : Nat) (d : CDirectiveAlignFill) (w : World) :
    (validateFill oldSize d w).2.1.finalSize = d.finalSize := by
  unfold validateFill validateReserve
  split
  · split <;> rfl
  · rfl

end CDirectiveAlignFill

/-! ### C1: alignment arithmetic -/

/-- C1. Alignment arithmetic: when an Align directive validates with a
power-of-two alignment `v` (held in `value`, or supplied by the value
expression) at virtual address `a`, `Validate` sets `finalSize` to `0` when
`a % v = 0` and to `v - a % v` otherwise; this is less than `v`, brings the
address to a multiple of `v`, and no smaller padding does.  An alignment of
`0x10` at address `0x1003` gives `finalSize = 0xD`. -/
theorem alignFill_validate_align_padding (d : CDirectiveAlignFill) (w : World) (v : Nat)
    (hmode : d.mode = Mode.Align)
    (hval : (d.valueExpression.isLoaded = false ∧ d.value = v) ∨
      d.valueExpression = { loaded := true, value := some v })
    (hpow : isPowerOfTwo v = true) :
    (d.Validate w).2.1.finalSize
        = (if w.getVirtualAddress % v = 0 then 0 else v - w.getVirtualAddress % v) ∧
      (d.Validate w).2.1.finalSize < v ∧
      (w.getVirtualAddress + (d.Validate w).2.1.finalSize) % v = 0 ∧
      (∀ p : Nat, (w.getVirtualAddress + p) % v = 0 → (d.Validate w).2.1.finalSize ≤ p) ∧
      ((CDirectiveAlignFill.new 0x10 Mode.Align).Validate
        { virtualAddress := 0x1003, files := [], activeFile := none, trace := [] }).2.1.finalSize
        = 0xD := by
  have hpos : 0 < v := isPowerOfTwo_pos hpow
  have hlt : v < 2 ^ 64 := isPowerOfTwo_lt hpow
  have hmod : w.getVirtualAddress % v < v := Nat.mod_lt _ hpos
  have key : (d.Validate w).2.1.finalSize
      = (if w.getVirtualAddress % v = 0 then 0 else v - w.getVirtualAddress % v) := by
    rcases hval with ⟨hl, hv⟩ | he
    · subst hv
      unfold CDirectiveAlignFill.Validate
      simp only [hl, CDirectiveAlignFill.validateMode, hmode, hpow]
      simp only [Bool.false_eq_true, if_false, beq_self_eq_true, CDirectiveAlignFill.validateFill_finalSize]
      by_cases h0 : w.getVirtualAddress % d.value = 0
      · simp [h0, CDirectiveAlignFill.validateFill_finalSize]
      · simp [h0, u64sub_of_le (Nat.le_of_lt hmod) hlt, CDirectiveAlignFill.validateFill_finalSize]
    · unfold CDirectiveAlignFill.Validate
      simp only [he, Expression.isLoaded, Expression.evaluateInteger, toU64_of_lt hlt,
        CDirectiveAlignFill.validateMode, hmode, hpow]
      simp only [if_true, Bool.true_eq_false, if_false, CDirectiveAlignFill.validateFill_finalSize]
      by_cases h0 : w.getVirtualAddress % v = 0
      · simp [h0, CDirectiveAlignFill.validateFill_finalSize]
      · simp [h0, u64sub_of_le (Nat.le_of_lt hmod) hlt, CDirectiveAlignFill.validateFill_finalSize]
  refine ⟨key, ?_, ?_, ?_, by decide⟩
  · rw [key]; split <;> omega
  · rw [key]
    split
    · simpa using ‹w.getVirtualAddress % v = 0›
    · exact add_pad_mod _ _ hpos
  · intro p hp
    rw [key]
    split
    · exact Nat.zero_le _
    · exact pad_minimal _ _ _ ‹_› hp

/-- Witness of C1: alignment `0x10` at address `0x1003`. -/
theorem alignFill_validate_align_padding_witness :
    ((CDirectiveAlignFill.new 0x10 Mode.Align).Validate
        { virtualAddress := 0x1003, files := [], activeFile := none, trace := [] }).2.1.finalSize
      = 0xD ∧
    (0x1003 + ((CDirectiveAlignFill.new 0x10 Mode.Align).Validate
        { virtualAddress := 0x1003, files := [], activeFile := none, trace := [] }).2.1.finalSize)
      % 0x10 = 0 := by
  have h := alignFill_validate_align_padding (CDirectiveAlignFill.new 0x10 Mode.Align)
    { virtualAddress := 0x1003, files := [], activeFile := none, trace := [] } 0x10
    rfl (Or.inl ⟨rfl, by decide⟩) (by decide)
  exact ⟨h.2.2.2.2, h.2.2.1⟩

/-! ### C2: truncation of the incbin range -/

/-- C2 at the failing input: a 100-byte file, start 90 and requested size
`2 ^ 64 - 50`.  The sum `start + size` wraps to 40 in `u64`, so `Validate`
reports neither an Error nor a Warning, keeps the requested size and reserves
it, although the range does not fit in the file. -/
theorem incbin_validate_wrapped_range_kept :
    ((CDirectiveIncbin.Validate
        { fileName := "f", fileSize := 100,
          startExpression := { loaded := true, value := some 90 },
          sizeExpression := { loaded := true, value := some (2 ^ 64 - 50) },
          start := 0, size := 0 }
        { virtualAddress := 0, files := [], activeFile := none, trace := [] })
      = (false,
          { fileName := "f", fileSize := 100,
            startExpression := { loaded := true, value := some 90 },
            sizeExpression := { loaded := true, value := some (2 ^ 64 - 50) },
            start := 90, size := 2 ^ 64 - 50 },
          { virtualAddress := 2 ^ 64 - 50, files := [], activeFile := none,
            trace := [Event.nextSection, Event.advanceMemory (2 ^ 64 - 50)] })) ∧
      ¬ (90 + (2 ^ 64 - 50) ≤ 100) := by
  constructor
  · decide
  · decide

/-! ### Traces -/

namespace World

theorem advances_append (l₁ l₂ : List Event) :
    advances (l₁ ++ l₂) = advances l₁ ++ advances l₂ := by
  induction l₁ with
  | nil => rfl
  | cons e es ih => cases e <;> simp [advances, ih]

theorem written_append (l₁ l₂ : List Event) :
    written (l₁ ++ l₂) = written l₁ ++ written l₂ := by
  induction l₁ with
  | nil => rfl
  | cons e es ih => cases e <;> simp [written, ih]

theorem reports_append (t : ErrorType) (l₁ l₂ : List Event) :
    reports t (l₁ ++ l₂) = reports t l₁ ++ reports t l₂ := by
  induction l₁ with
  | nil => rfl
  | cons e es ih =>
    cases e <;> simp only [reports, List.cons_append]
    all_goals first
      | exact ih
      | (split <;> simp [ih])

@[simp] theorem printError_trace (w : World) (t : ErrorType) (s : String) :
    (w.printError t s).trace = w.trace ++ [Event.printError t s] := rfl

@[simp] theorem queueError_trace (w : World) (t : ErrorType) (s : String) :
    (w.queueError t s).trace = w.trace ++ [Event.queueError t s] := rfl

@[simp] theorem nextSection_trace (w : World) :
    w.nextSection.trace = w.trace ++ [Event.nextSection] := rfl

@[simp] theorem advanceMemory_trace (w : World) (n : Nat) :
    (w.advanceMemory n).trace = w.trace ++ [Event.advanceMemory n] := rfl

@[simp] theorem write_trace (w : World) (bs : List (Option Nat)) :
    (w.write bs).trace = w.trace ++ [Event.write bs] := rfl

@[simp] theorem printError_virtualAddress (w : World) (t : ErrorType) (s : String) :
    (w.printError t s).virtualAddress = w.virtualAddress := rfl

@[simp] theorem queueError_virtualAddress (w : World) (t : ErrorType) (s : String) :
    (w.queueError t s).virtualAddress = w.virtualAddress := rfl

@[simp] theorem nextSection_virtualAddress (w : World) :
    w.nextSection.virtualAddress = w.virtualAddress := rfl

@[simp] theorem advanceMemory_virtualAddress (w : World) (n : Nat) :
    (w.advanceMemory n).virtualAddress = u64add w.virtualAddress n := rfl

/-- A list never equals itself extended by one element. -/
theorem append_singleton_ne {α : Type} (l : List α) (x : α) : l ++ [x] ≠ l := by
  intro h
  have := congrArg List.length h
  simp at this

end World

/-! ### Outcomes of `CDirectiveAlignFill::Validate` -/

namespace CDirectiveAlignFill

/-- Every run of `Validate` ends in one of two ways: with one diagnostic of
severity Error or FatalError, `false` returned and nothing else done, or with
the section mark, the reservation of the new `finalSize` and the comparison
with the `finalSize` held before. -/
theorem alignFill_outcome (d : CDirectiveAlignFill) (w : World) :
    (∃ t s, t ≠ ErrorType.Warning ∧ (d.Validate w).2.2 = w.printError t s ∧
        (d.Validate w).1 = false) ∨
      ((d.Validate w).1 = (d.finalSize != (d.Validate w).2.1.finalSize) ∧
        (d.Validate w).2.2 = (w.nextSection).advanceMemory (d.Validate w).2.1.finalSize) := by
  have hfill : ∀ (old : Nat) (e : CDirectiveAlignFill),
      (∃ t s, t ≠ ErrorType.Warning ∧ (validateFill old e w).2.2 = w.printError t s ∧
          (validateFill old e w).1 = false) ∨
        ((validateFill old e w).1 = (old != (validateFill old e w).2.1.finalSize) ∧
          (validateFill old e w).2.2
            = (w.nextSection).advanceMemory (validateFill old e w).2.1.finalSize) := by
    intro old e
    unfold validateFill validateReserve
    split
    · split
      · exact Or.inl ⟨_, _, by decide, rfl, rfl⟩
      · exact Or.inr ⟨rfl, rfl⟩
    · exact Or.inr ⟨rfl, rfl⟩
  have hmode : ∀ e : CDirectiveAlignFill,
      (∃ t s, t ≠ ErrorType.Warning ∧ (validateMode e w).2.2 = w.printError t s ∧
          (validateMode e w).1 = false) ∨
        ((validateMode e w).1 = (e.finalSize != (validateMode e w).2.1.finalSize) ∧
          (validateMode e w).2.2
            = (w.nextSection).advanceMemory (validateMode e w).2.1.finalSize) := by
    intro e
    unfold validateMode
    split
    · split
      · exact Or.inl ⟨_, _, by decide, rfl, rfl⟩
      · exact hfill _ _
    · exact hfill _ _
  unfold Validate
  split
  · split
    · exact Or.inl ⟨_, _, by decide, rfl, rfl⟩
    · exact hmode _
  · exact hmode _

end CDirectiveAlignFill

/-! ### C4: alignment validity -/

/-- C4. Alignment validity: when an Align directive validates with a value `v`
that is not a power of two, `Validate` reports one diagnostic of severity
Error, returns `changed = false`, does not call `advanceMemory`, leaves the
virtual cursor where it was and leaves `finalSize` at its previous value. -/
theorem alignFill_validate_align_invalid (d : CDirectiveAlignFill) (w : World) (v : Nat)
    (hmode : d.mode = Mode.Align)
    (hval : (d.valueExpression.isLoaded = false ∧ d.value = v) ∨
      (d.valueExpression = { loaded := true, value := some v } ∧ v < 2 ^ 64))
    (hpow : isPowerOfTwo v = false) :
    (d.Validate w).1 = false ∧
      (d.Validate w).2.2.trace
        = w.trace ++ [Event.printError ErrorType.Error "Invalid alignment %d"] ∧
      World.advances (d.Validate w).2.2.trace = World.advances w.trace ∧
      (d.Validate w).2.2.virtualAddress = w.virtualAddress ∧
      (d.Validate w).2.1.finalSize = d.finalSize := by
  have key : d.Validate w
      = (false, { d with value := v }, w.printError ErrorType.Error "Invalid alignment %d") := by
    rcases hval with ⟨hl, hv⟩ | ⟨he, hlt⟩
    · subst hv
      unfold CDirectiveAlignFill.Validate
      simp only [hl, CDirectiveAlignFill.validateMode, hmode, hpow]
      simp only [Bool.false_eq_true, if_false, beq_self_eq_true, if_true]
      cases d
      cases hmode
      rfl
    · unfold CDirectiveAlignFill.Validate
      simp [he, Expression.isLoaded, Expression.evaluateInteger, toU64_of_lt hlt,
        CDirectiveAlignFill.validateMode, hmode, hpow]
  rw [key]
  refine ⟨rfl, rfl, ?_, rfl, rfl⟩
  simp [World.advances_append, World.advances]

/-- Witness of C4: alignment 6 at address `0x1003`. -/
theorem alignFill_validate_align_invalid_witness :
    ((CDirectiveAlignFill.new 6 Mode.Align).Validate
        { virtualAddress := 0x1003, files := [], activeFile := none, trace := [] }).1 = false ∧
    ((CDirectiveAlignFill.new 6 Mode.Align).Validate
        { virtualAddress := 0x1003, files := [], activeFile := none, trace := [] }).2.2.virtualAddress
      = 0x1003 := by
  have h := alignFill_validate_align_invalid (CDirectiveAlignFill.new 6 Mode.Align)
    { virtualAddress := 0x1003, files := [], activeFile := none, trace := [] } 6
    rfl (Or.inl ⟨rfl, by decide⟩) (by decide)
  exact ⟨h.1, h.2.2.2.1⟩

/-! ### C5: change reporting of align and fill -/

/-- C5. Change reporting: when `Validate` of an Align or Fill directive reports
no diagnostic of severity Error or FatalError, the returned flag is `true`
exactly when the new `finalSize` differs from the one held before the call,
`advanceMemory` is called once, with the new `finalSize`, and the virtual
cursor has moved forward by the new `finalSize` (in `u64`). -/
theorem alignFill_validate_changed_iff (d : CDirectiveAlignFill) (w : World)
    (hE : World.reports ErrorType.Error (d.Validate w).2.2.trace
      = World.reports ErrorType.Error w.trace)
    (hF : World.reports ErrorType.FatalError (d.Validate w).2.2.trace
      = World.reports ErrorType.FatalError w.trace) :
    ((d.Validate w).1 = true ↔ (d.Validate w).2.1.finalSize ≠ d.finalSize) ∧
      World.advances (d.Validate w).2.2.trace
        = World.advances w.trace ++ [(d.Validate w).2.1.finalSize] ∧
      (d.Validate w).2.2.virtualAddress
        = u64add w.virtualAddress (d.Validate w).2.1.finalSize := by
  rcases CDirectiveAlignFill.alignFill_outcome d w with ⟨t, s, ht, hw, _⟩ | ⟨hc, hw⟩
  · exfalso
    rw [hw] at hE hF
    cases t
    · exact ht rfl
    · simp only [World.printError_trace, World.reports_append, World.reports, if_true] at hE
      exact World.append_singleton_ne _ _ hE
    · simp only [World.printError_trace, World.reports_append, World.reports, if_true] at hF
      exact World.append_singleton_ne _ _ hF
  · refine ⟨?_, ?_, ?_⟩
    · rw [hc]
      simp only [bne_iff_ne, ne_eq]
      exact ⟨fun h e => h e.symm, fun h e => h e.symm⟩
    · rw [hw]
      simp [World.advances_append, World.advances]
    · rw [hw]
      rfl

/-- Witness of C5: a fill of 5 bytes validated for the first time. -/
theorem alignFill_validate_changed_iff_witness :
    ((CDirectiveAlignFill.new 5 Mode.Fill).Validate
        { virtualAddress := 0x1000, files := [], activeFile := none, trace := [] }).1 = true ∧
    ((CDirectiveAlignFill.new 5 Mode.Fill).Validate
        { virtualAddress := 0x1000, files := [], activeFile := none, trace := [] }).2.2.virtualAddress
      = 0x1005 := by
  have h := alignFill_validate_changed_iff (CDirectiveAlignFill.new 5 Mode.Fill)
    { virtualAddress := 0x1000, files := [], activeFile := none, trace := [] }
    (by decide) (by decide)
  exact ⟨h.1.mpr (by decide), h.2.2.trans (by decide)⟩

/-! ### Outcomes of `CDirectiveIncbin::Validate` -/

theorem u64add_sub_cancel {a b : Nat} (h : b ≤ a) (ha : a < 2 ^ 64) :
    u64add b (a - b) = a := by
  unfold u64add
  omega

theorem toLong_toNat {s : Nat} (hs : s < 2 ^ 64) (h : ¬ toLong s < 0) : (toLong s).toNat = s := by
  unfold toLong at h ⊢
  split at h
  · rw [if_pos ‹_›]
    omega
  · omega

theorem toLong_neg_of_ge {s : Nat} (hs : s < 2 ^ 64) (h : 2 ^ 63 ≤ s) : toLong s < 0 := by
  unfold toLong
  rw [if_neg (by omega)]
  omega

namespace CDirectiveIncbin

/-- The end of `Validate` either leaves the size or truncates it with a
Warning; it then marks the section and reserves the size. -/
theorem validateReserve_outcome (e : CDirectiveIncbin) (w : World) :
    (validateReserve e w).1 = false ∧ (validateReserve e w).2.1.start = e.start ∧
      ((validateReserve e w).2.2
          = (w.nextSection).advanceMemory (validateReserve e w).2.1.size ∨
        (validateReserve e w).2.2
          = ((w.queueError ErrorType.Warning "Read size truncated due to file size").nextSection
              ).advanceMemory (validateReserve e w).2.1.size) := by
  unfold validateReserve validateTruncate
  split
  · exact ⟨rfl, rfl, Or.inr rfl⟩
  · exact ⟨rfl, rfl, Or.inl rfl⟩

/-- Every run of `Validate` returns `false` and ends in one of two ways: with
one diagnostic of severity Error and nothing else done, or, after at most a
Warning, with the section mark and the reservation of the resolved size. -/
theorem incbin_outcome (d : CDirectiveIncbin) (w : World) :
    (d.Validate w).1 = false ∧
      ((∃ s, (d.Validate w).2.2 = w.queueError ErrorType.Error s) ∨
        (d.Validate w).2.2 = (w.nextSection).advanceMemory (d.Validate w).2.1.size ∨
        (d.Validate w).2.2
          = ((w.queueError ErrorType.Warning "Read size truncated due to file size").nextSection
              ).advanceMemory (d.Validate w).2.1.size) := by
  have hsize : ∀ e : CDirectiveIncbin,
      (validateSize e w).1 = false ∧
        ((∃ s, (validateSize e w).2.2 = w.queueError ErrorType.Error s) ∨
          (validateSize e w).2.2 = (w.nextSection).advanceMemory (validateSize e w).2.1.size ∨
          (validateSize e w).2.2
            = ((w.queueError ErrorType.Warning "Read size truncated due to file size").nextSection
                ).advanceMemory (validateSize e w).2.1.size) := by
    intro e
    unfold validateSize
    split
    · split
      · exact ⟨rfl, Or.inl ⟨_, rfl⟩⟩
      · exact ⟨(validateReserve_outcome _ w).1, Or.inr (validateReserve_outcome _ w).2.2⟩
    · exact ⟨(validateReserve_outcome _ w).1, Or.inr (validateReserve_outcome _ w).2.2⟩
  unfold Validate
  split
  · split
    · exact ⟨rfl, Or.inl ⟨_, rfl⟩⟩
    · split
      · exact ⟨rfl, Or.inl ⟨_, rfl⟩⟩
      · exact hsize _
  · exact hsize _

/-- Unfolding of `Validate` without a start expression. -/
theorem Validate_of_not_loaded (d : CDirectiveIncbin) (w : World)
    (hl : d.startExpression.isLoaded = false) :
    d.Validate w = validateSize { d with start := 0 } w := by
  unfold Validate
  simp [hl]

/-- Unfolding of `Validate` when the start expression fails to evaluate. -/
theorem Validate_of_fail (d : CDirectiveIncbin) (w : World)
    (hl : d.startExpression.isLoaded = true)
    (hev : (d.startExpression.evaluateInteger d.start).1 = false) :
    d.Validate w = (false, d, w.queueError ErrorType.Error "Invalid position expression") := by
  unfold Validate
  rw [if_pos hl]
  split
  · rfl
  · rename_i h
    rw [h] at hev
    cases hev

/-- Unfolding of `Validate` when the start expression evaluates to `s`. -/
theorem Validate_of_eval (d : CDirectiveIncbin) (w : World) (s : Nat)
    (hl : d.startExpression.isLoaded = true)
    (hev : d.startExpression.evaluateInteger d.start = (true, s)) :
    d.Validate w = if s > d.fileSize then
        (false, { d with start := s },
          w.queueError ErrorType.Error "Start position past end of file")
      else validateSize { d with start := s } w := by
  unfold Validate
  rw [if_pos hl, hev]

/-- Without a size expression, and with `start` inside the file, the size
becomes `fileSize - start`, nothing is truncated and that size is reserved. -/
theorem validateSize_default (e : CDirectiveIncbin) (w : World)
    (hl : e.sizeExpression.isLoaded = false) (hs : e.start ≤ e.fileSize)
    (hfs : e.fileSize < 2 ^ 64) :
    validateSize e w = (false, { e with size := e.fileSize - e.start },
      (w.nextSection).advanceMemory (e.fileSize - e.start)) := by
  unfold validateSize validateReserve validateTruncate
  simp [hl, u64sub_of_le hs hfs, u64add_sub_cancel hs hfs]

/-- A run of `Validate` that reports no Error reserves the resolved size. -/
theorem Validate_reserves (d : CDirectiveIncbin) (w : World)
    (hE : World.reports ErrorType.Error (d.Validate w).2.2.trace
      = World.reports ErrorType.Error w.trace) :
    World.advances (d.Validate w).2.2.trace
        = World.advances w.trace ++ [(d.Validate w).2.1.size] ∧
      (d.Validate w).2.2.virtualAddress = u64add w.virtualAddress (d.Validate w).2.1.size := by
  rcases (incbin_outcome d w).2 with ⟨s, hw⟩ | hw | hw
  · exfalso
    rw [hw] at hE
    simp only [World.queueError_trace, World.reports_append, World.reports, if_true] at hE
    exact World.append_singleton_ne _ _ hE
  · rw [hw]
    exact ⟨by simp [World.advances_append, World.advances], rfl⟩
  · rw [hw]
    exact ⟨by simp [World.advances_append, World.advances], rfl⟩

end CDirectiveIncbin

/-! ### C8: defaults of the incbin range -/

/-- C8. Incbin defaults: without a start expression `Validate` sets `start`
to 0; without a size expression a validation that reports no Error sets `size`
to `fileSize - start`; with neither, `start = 0` and `size = fileSize`; and
every validation that reports no Error calls `advanceMemory` once, with the
resolved size, which moves the virtual cursor forward by that size. -/
theorem incbin_validate_defaults (d : CDirectiveIncbin) (w : World)
    (hfs : d.fileSize < 2 ^ 64) :
    (d.startExpression.isLoaded = false → (d.Validate w).2.1.start = 0) ∧
      (d.sizeExpression.isLoaded = false →
        World.reports ErrorType.Error (d.Validate w).2.2.trace
          = World.reports ErrorType.Error w.trace →
        (d.Validate w).2.1.size = d.fileSize - (d.Validate w).2.1.start) ∧
      (d.startExpression.isLoaded = false → d.sizeExpression.isLoaded = false →
        (d.Validate w).2.1.start = 0 ∧ (d.Validate w).2.1.size = d.fileSize ∧
          World.reports ErrorType.Error (d.Validate w).2.2.trace
            = World.reports ErrorType.Error w.trace) ∧
      (World.reports ErrorType.Error (d.Validate w).2.2.trace
          = World.reports ErrorType.Error w.trace →
        World.advances (d.Validate w).2.2.trace
            = World.advances w.trace ++ [(d.Validate w).2.1.size] ∧
          (d.Validate w).2.2.virtualAddress
            = u64add w.virtualAddress (d.Validate w).2.1.size) := by
  refine ⟨?_, ?_, ?_, CDirectiveIncbin.Validate_reserves d w⟩
  · intro hl
    rw [CDirectiveIncbin.Validate_of_not_loaded d w hl]
    unfold CDirectiveIncbin.validateSize
    split
    · split
      · rfl
      · exact (CDirectiveIncbin.validateReserve_outcome _ w).2.1
    · exact (CDirectiveIncbin.validateReserve_outcome _ w).2.1
  · intro hl hE
    cases hsl : d.startExpression.isLoaded with
    | false =>
      rw [CDirectiveIncbin.Validate_of_not_loaded d w hsl,
        CDirectiveIncbin.validateSize_default { d with start := 0 } w hl (Nat.zero_le _) hfs]
    | true =>
      cases hev : d.startExpression.evaluateInteger d.start with
      | mk ok s =>
        cases ok with
        | false =>
          exfalso
          rw [CDirectiveIncbin.Validate_of_fail d w hsl (by rw [hev])] at hE
          simp only [World.queueError_trace, World.reports_append, World.reports, if_true] at hE
          exact World.append_singleton_ne _ _ hE
        | true =>
          rw [CDirectiveIncbin.Validate_of_eval d w s hsl hev] at hE ⊢
          by_cases hgt : s > d.fileSize
          · exfalso
            rw [if_pos hgt] at hE
            simp only [World.queueError_trace, World.reports_append, World.reports, if_true] at hE
            exact World.append_singleton_ne _ _ hE
          · rw [if_neg hgt, CDirectiveIncbin.validateSize_default { d with start := s } w hl
              (Nat.le_of_not_lt hgt) hfs]
  · intro hl hl2
    rw [CDirectiveIncbin.Validate_of_not_loaded d w hl,
      CDirectiveIncbin.validateSize_default { d with start := 0 } w hl2 (Nat.zero_le _) hfs]
    refine ⟨rfl, rfl, ?_⟩
    simp [World.reports_append, World.reports]

/-- Witness of C8: a 100-byte file included without start and size. -/
theorem incbin_validate_defaults_witness :
    ((CDirectiveIncbin.Validate
        { fileName := "f", fileSize := 100, startExpression := Expression.empty,
          sizeExpression := Expression.empty, start := 7, size := 9 }
        { virtualAddress := 0x2000, files := [], activeFile := none, trace := [] }).2.1.start = 0) ∧
    ((CDirectiveIncbin.Validate
        { fileName := "f", fileSize := 100, startExpression := Expression.empty,
          sizeExpression := Expression.empty, start := 7, size := 9 }
        { virtualAddress := 0x2000, files := [], activeFile := none, trace := [] }).2.1.size
      = 100) := by
  have h := incbin_validate_defaults
    { fileName := "f", fileSize := 100, startExpression := Expression.empty,
      sizeExpression := Expression.empty, start := 7, size := 9 }
    { virtualAddress := 0x2000, files := [], activeFile := none, trace := [] } (by decide)
  exact ⟨(h.2.2.1 rfl rfl).1, (h.2.2.1 rfl rfl).2.1⟩

/-! ### Reading the source file -/

/-- A read that returns as many bytes as were asked for, at least one, returns
the bytes of the file at offsets `start` to `start + size`. -/
theorem fromFile_full {file : List Nat} {s n : Nat} (hs : s < 2 ^ 64) (hn : n ≠ 0)
    (hlen : (ByteArray.fromFile file (toLong s) n).length = n) :
    ByteArray.fromFile file (toLong s) n = (file.drop s).take n := by
  unfold ByteArray.fromFile at hlen ⊢
  by_cases hneg : toLong s < 0
  · rw [if_pos hneg] at hlen
    exact absurd hlen.symm hn
  · rw [if_neg hneg, toLong_toNat hs hneg]

/-- A read at an offset past the end of the file returns nothing. -/
theorem fromFile_past_end {file : List Nat} {s n : Nat} (hs : s < 2 ^ 64)
    (hpast : file.length < s) : ByteArray.fromFile file (toLong s) n = [] := by
  unfold ByteArray.fromFile
  by_cases hneg : toLong s < 0
  · rw [if_pos hneg]
  · rw [if_neg hneg, toLong_toNat hs hneg, List.drop_eq_nil_of_le (Nat.le_of_lt hpast)]
    exact List.take_nil

/-! ### C7: start offset past the end of the file -/

/-- C7. Incbin start past end: when the start expression evaluates to a value
`s` greater than `fileSize`, `Validate` reports one Error, returns `false`,
does not call `advanceMemory` and leaves the virtual cursor and `size` as they
were; an `Encode` of the directive after that, reading a file of `fileSize`
bytes, writes no byte, whatever `size` is. -/
theorem incbin_validate_start_past_end (d : CDirectiveIncbin) (w : World) (s : Nat)
    (file : List Nat)
    (hexpr : d.startExpression = { loaded := true, value := some s })
    (hs : s < 2 ^ 64) (hpast : d.fileSize < s) (hfile : file.length = d.fileSize) :
    (d.Validate w).1 = false ∧
      (d.Validate w).2.2.trace
        = w.trace ++ [Event.queueError ErrorType.Error "Start position past end of file"] ∧
      World.advances (d.Validate w).2.2.trace = World.advances w.trace ∧
      (d.Validate w).2.2.virtualAddress = w.virtualAddress ∧
      (d.Validate w).2.1.size = d.size ∧
      (∀ w' : World,
        World.written ((d.Validate w).2.1.Encode file w').trace = World.written w'.trace) := by
  have hl : d.startExpression.isLoaded = true := by rw [hexpr]; rfl
  have hev : d.startExpression.evaluateInteger d.start = (true, s) := by
    rw [hexpr]
    simp [Expression.evaluateInteger, toU64_of_lt hs]
  have key : d.Validate w = (false, { d with start := s },
      w.queueError ErrorType.Error "Start position past end of file") := by
    rw [CDirectiveIncbin.Validate_of_eval d w s hl hev, if_pos hpast]
  rw [key]
  refine ⟨rfl, rfl, ?_, rfl, rfl, ?_⟩
  · simp [World.advances_append, World.advances]
  · intro w'
    unfold CDirectiveIncbin.Encode
    simp only [fromFile_past_end hs (hfile ▸ hpast)]
    by_cases h0 : d.size = 0
    · simp [h0]
    · have h0' : 0 ≠ d.size := fun h => h0 h.symm
      simp [h0, h0', World.written_append, World.written]

/-- Witness of C7: start 150 in a 100-byte file, with size 10 left by an
earlier pass. -/
theorem incbin_validate_start_past_end_witness :
    World.written (((CDirectiveIncbin.Validate
        { fileName := "f", fileSize := 100,
          startExpression := { loaded := true, value := some 150 },
          sizeExpression := Expression.empty, start := 90, size := 10 }
        { virtualAddress := 0, files := [], activeFile := none, trace := [] }).2.1.Encode
          (List.replicate 100 7)
          { virtualAddress := 0, files := [], activeFile := none, trace := [] }).trace) = [] :=
  (incbin_validate_start_past_end
    { fileName := "f", fileSize := 100,
      startExpression := { loaded := true, value := some 150 },
      sizeExpression := Expression.empty, start := 90, size := 10 }
    { virtualAddress := 0, files := [], activeFile := none, trace := [] } 150
    (List.replicate 100 7) rfl (by decide) (by decide) (by decide)).2.2.2.2.2
    { virtualAddress := 0, files := [], activeFile := none, trace := [] }

/-! ### C10: incbin emission -/

/-- C10. Incbin emission is all-or-nothing: `Encode` does nothing when
`size = 0`; when the read returns exactly `size` bytes it makes one `write`, of
the bytes of the source file at offsets `start` to `start + size`, which are
`size` bytes; when the read returns another number of bytes it reports an Error
and writes nothing.  So the bytes written are none, or the whole range. -/
theorem incbin_encode_all_or_nothing (file : List Nat) (d : CDirectiveIncbin) (w : World)
    (hstart : d.start < 2 ^ 64) :
    (d.size = 0 → d.Encode file w = w) ∧
      (d.size ≠ 0 → (ByteArray.fromFile file (toLong d.start) d.size).length = d.size →
        d.Encode file w = w.write (((file.drop d.start).take d.size).map some) ∧
          ((file.drop d.start).take d.size).length = d.size) ∧
      (d.size ≠ 0 → (ByteArray.fromFile file (toLong d.start) d.size).length ≠ d.size →
        d.Encode file w = w.printError ErrorType.Error "Could not read file \"%s\"") ∧
      (World.written (d.Encode file w).trace = World.written w.trace ∨
        (World.written (d.Encode file w).trace
            = World.written w.trace ++ ((file.drop d.start).take d.size).map some ∧
          ((file.drop d.start).take d.size).length = d.size)) := by
  have h1 : d.size = 0 → d.Encode file w = w := by
    intro h0
    unfold CDirectiveIncbin.Encode
    simp [h0]
  have h2 : d.size ≠ 0 → (ByteArray.fromFile file (toLong d.start) d.size).length = d.size →
      d.Encode file w = w.write (((file.drop d.start).take d.size).map some) ∧
        ((file.drop d.start).take d.size).length = d.size := by
    intro h0 hlen
    have hfull := fromFile_full hstart h0 hlen
    unfold CDirectiveIncbin.Encode
    rw [hfull] at hlen ⊢
    simp [h0, hlen]
  have h3 : d.size ≠ 0 → (ByteArray.fromFile file (toLong d.start) d.size).length ≠ d.size →
      d.Encode file w = w.printError ErrorType.Error "Could not read file \"%s\"" := by
    intro h0 hlen
    unfold CDirectiveIncbin.Encode
    simp [h0, hlen]
  refine ⟨h1, h2, h3, ?_⟩
  by_cases h0 : d.size = 0
  · exact Or.inl (by rw [h1 h0])
  · by_cases hlen : (ByteArray.fromFile file (toLong d.start) d.size).length = d.size
    · refine Or.inr ⟨?_, (h2 h0 hlen).2⟩
      rw [(h2 h0 hlen).1]
      simp [World.written_append, World.written]
    · refine Or.inl ?_
      rw [h3 h0 hlen]
      simp [World.written_append, World.written]

/-- Witness of C10: bytes 1 and 2 of a four-byte file. -/
theorem incbin_encode_all_or_nothing_witness :
    CDirectiveIncbin.Encode [10, 11, 12, 13]
        { fileName := "f", fileSize := 4, startExpression := Expression.empty,
          sizeExpression := Expression.empty, start := 1, size := 2 }
        { virtualAddress := 0, files := [], activeFile := none, trace := [] }
      = { virtualAddress := 2, files := [], activeFile := none,
          trace := [Event.write [some 11, some 12]] } :=
  ((incbin_encode_all_or_nothing [10, 11, 12, 13]
    { fileName := "f", fileSize := 4, startExpression := Expression.empty,
      sizeExpression := Expression.empty, start := 1, size := 2 }
    { virtualAddress := 0, files := [], activeFile := none, trace := [] }
    (by decide)).2.1 (by decide) (by decide)).1.trans (by decide)

/-! ### C9: emission of align and fill -/

namespace CDirectiveAlignFill

/-- The loop of `Encode` stops with at most 128 bytes left and does nothing
when it starts with at most 128. -/
theorem encodeLoop_of_le (b : List (Option Nat)) (n : Nat) (w : World) (h : n ≤ 128) :
    encodeLoop b n w = (n, w) := by
  rw [encodeLoop, if_neg (by omega)]

/-- With a buffer whose 128 bytes all hold `x`, the loop of `Encode` writes
`x` only, and what it has written together with what it leaves to write is
`n` bytes. -/
theorem encodeLoop_written (b : List (Option Nat)) (x : Option Nat)
    (hb : b.take 128 = List.replicate 128 x) (n : Nat) :
    ∀ w : World, (encodeLoop b n w).1 ≤ 128 ∧
      World.written (encodeLoop b n w).2.trace ++ List.replicate (encodeLoop b n w).1 x
        = World.written w.trace ++ List.replicate n x := by
  induction n using Nat.strong_induction_on with
  | _ n ih =>
    intro w
    rw [encodeLoop]
    split
    · rename_i hgt
      have hrec := ih (n - 128) (by omega) (w.write (b.take 128))
      refine ⟨hrec.1, ?_⟩
      rw [hrec.2, World.write_trace, World.written_append, hb]
      have hn : n = 128 + (n - 128) := by omega
      conv_rhs => rw [hn, List.replicate_add]
      simp [World.written]
    · exact ⟨by omega, rfl⟩

/-- Bytes written by `Encode`: `finalSize` copies of the fill byte. -/
theorem Encode_written (d : CDirectiveAlignFill) (w : World) :
    World.written (d.Encode w).trace
      = World.written w.trace ++ List.replicate d.finalSize (some (d.fillByte % 256)) := by
  unfold Encode
  by_cases hgt : 128 < d.finalSize
  · simp only [if_pos hgt]
    have hb : (memset (List.replicate 128 none) d.fillByte 128).take 128
        = List.replicate 128 (some (d.fillByte % 256)) := by
      simp [memset]
    have hloop := encodeLoop_written _ _ hb d.finalSize w
    have hle := hloop.1
    rw [World.write_trace, World.written_append, ← hloop.2]
    have htake : (memset (List.replicate 128 none) d.fillByte 128).take
          (encodeLoop (memset (List.replicate 128 none) d.fillByte 128) d.finalSize w).1
        = List.replicate
          (encodeLoop (memset (List.replicate 128 none) d.fillByte 128) d.finalSize w).1
          (some (d.fillByte % 256)) := by
      have h2 := congrArg (List.take
        (encodeLoop (memset (List.replicate 128 none) d.fillByte 128) d.finalSize w).1) hb
      rw [List.take_take, Nat.min_eq_left hle, List.take_replicate, Nat.min_eq_left hle] at h2
      exact h2
    rw [htake]
    simp [World.written]
  · have hle : d.finalSize ≤ 128 := Nat.le_of_not_lt hgt
    simp only [if_neg hgt, encodeLoop_of_le _ _ _ hle]
    rw [World.write_trace, World.written_append]
    have htake : (memset (List.replicate 128 none) d.fillByte d.finalSize).take d.finalSize
        = List.replicate d.finalSize (some (d.fillByte % 256)) := by
      unfold memset
      rw [List.length_replicate, Nat.min_eq_left hle, List.take_append_eq_append_take]
      simp
    rw [htake]
    simp [World.written]

end CDirectiveAlignFill

/-- Without a fill expression `Validate` leaves `fillByte` as it was. -/
theorem CDirectiveAlignFill.Validate_fillByte (d : CDirectiveAlignFill) (w : World)
    (hl : d.fillExpression.isLoaded = false) : (d.Validate w).2.1.fillByte = d.fillByte := by
  have hfill : ∀ (old : Nat) (e : CDirectiveAlignFill), e.fillExpression = d.fillExpression →
      (CDirectiveAlignFill.validateFill old e w).2.1.fillByte = e.fillByte := by
    intro old e he
    unfold CDirectiveAlignFill.validateFill CDirectiveAlignFill.validateReserve
    simp [he, hl]
  have hmode : ∀ e : CDirectiveAlignFill, e.fillExpression = d.fillExpression →
      (CDirectiveAlignFill.validateMode e w).2.1.fillByte = e.fillByte := by
    intro e he
    unfold CDirectiveAlignFill.validateMode
    split
    · split
      · rfl
      · exact hfill _ _ he
    · exact hfill _ _ he
  unfold CDirectiveAlignFill.Validate
  split
  · split
    · rfl
    · exact hmode _ rfl
  · exact hmode _ rfl

/-- C9. AlignFill emission: for every `finalSize`, the bytes that `Encode`
hands to `write`, over all its calls, are `finalSize` copies of the low 8 bits
of `fillByte`, which is 0 after the validation of a directive constructed
without a fill expression; their number is `finalSize`, the amount reserved by
a `Validate` that reported no Error or FatalError. -/
theorem alignFill_encode_emits_finalSize (d : CDirectiveAlignFill) (w : World) :
    World.written (d.Encode w).trace
        = World.written w.trace ++ List.replicate d.finalSize (some (d.fillByte % 256)) ∧
      (World.written (d.Encode w).trace).length
        = (World.written w.trace).length + d.finalSize ∧
      (∀ (v : Nat) (m : Mode) (e : Expression) (w₀ : World),
        (((CDirectiveAlignFill.new v m).Validate w₀).2.1.fillByte % 256 = 0) ∧
          (((CDirectiveAlignFill.newExpr e m).Validate w₀).2.1.fillByte % 256 = 0)) ∧
      (∀ (d₀ : CDirectiveAlignFill) (w₀ : World),
        World.reports ErrorType.Error (d₀.Validate w₀).2.2.trace
          = World.reports ErrorType.Error w₀.trace →
        World.reports ErrorType.FatalError (d₀.Validate w₀).2.2.trace
          = World.reports ErrorType.FatalError w₀.trace →
        World.advances (d₀.Validate w₀).2.2.trace
            = World.advances w₀.trace ++ [(d₀.Validate w₀).2.1.finalSize] ∧
          (World.written ((d₀.Validate w₀).2.1.Encode w).trace).length
            = (World.written w.trace).length + (d₀.Validate w₀).2.1.finalSize) := by
  have hlen : ∀ e : CDirectiveAlignFill, (World.written (e.Encode w).trace).length
      = (World.written w.trace).length + e.finalSize := by
    intro e
    rw [CDirectiveAlignFill.Encode_written]
    simp
  refine ⟨CDirectiveAlignFill.Encode_written d w, hlen d, fun v m e w₀ => ⟨?_, ?_⟩, ?_⟩
  · rw [CDirectiveAlignFill.Validate_fillByte (CDirectiveAlignFill.new v m) w₀ rfl]
    rfl
  · rw [CDirectiveAlignFill.Validate_fillByte (CDirectiveAlignFill.newExpr e m) w₀ rfl]
    rfl
  intro d₀ w₀ hE hF
  refine ⟨?_, hlen _⟩
  rcases CDirectiveAlignFill.alignFill_outcome d₀ w₀ with ⟨t, s, ht, hw, _⟩ | ⟨_, hw⟩
  · exfalso
    rw [hw] at hE hF
    cases t
    · exact ht rfl
    · simp only [World.printError_trace, World.reports_append, World.reports, if_true] at hE
      exact World.append_singleton_ne _ _ hE
    · simp only [World.printError_trace, World.reports_append, World.reports, if_true] at hF
      exact World.append_singleton_ne _ _ hF
  · rw [hw]
    simp [World.advances_append, World.advances]

/-- Witness of C9: a fill of 300 bytes with fill byte `0x1FF` after its
validation. -/
theorem alignFill_encode_emits_finalSize_witness :
    (World.written (((CDirectiveAlignFill.newExprFill { loaded := true, value := some 300 }
        { loaded := true, value := some 0x1FF } Mode.Fill).Validate
          { virtualAddress := 0, files := [], activeFile := none, trace := [] }).2.1.Encode
          { virtualAddress := 0, files := [], activeFile := none, trace := [] }).trace).length
      = 0 + 300 :=
  ((alignFill_encode_emits_finalSize (CDirectiveAlignFill.new 0 Mode.Fill)
      { virtualAddress := 0, files := [], activeFile := none, trace := [] }).2.2.2
    (CDirectiveAlignFill.newExprFill { loaded := true, value := some 300 }
      { loaded := true, value := some 0x1FF } Mode.Fill)
    { virtualAddress := 0, files := [], activeFile := none, trace := [] }
    (by decide) (by decide)).2

/-! ### Validating twice from the same state -/

namespace Expression

/-- A successful evaluation does not depend on the former content of the
destination. -/
theorem evaluateInteger_of_success (e : Expression) (a b v : Nat)
    (h : e.evaluateInteger a = (true, v)) : e.evaluateInteger b = (true, v) := by
  obtain ⟨l, val⟩ := e
  cases l <;> cases val <;> simp_all [evaluateInteger]

/-- A failed evaluation leaves the destination as it was. -/
theorem evaluateInteger_of_failure (e : Expression) (a b x : Nat)
    (h : e.evaluateInteger a = (false, x)) : e.evaluateInteger b = (false, b) := by
  obtain ⟨l, val⟩ := e
  cases l <;> cases val <;> simp_all [evaluateInteger]

end Expression

namespace CDirectiveAlignFill

/-- The fill step changes `fillByte` only, and a second fill step on its
result changes nothing more; its flag can only be `true` when its `oldSize`
differs from `finalSize`. -/
theorem validateFill_twice (old old' : Nat) (e : CDirectiveAlignFill) (w : World) :
    ((validateFill old e w).2.1.mode = e.mode ∧
        (validateFill old e w).2.1.valueExpression = e.valueExpression ∧
        (validateFill old e w).2.1.value = e.value ∧
        (validateFill old e w).2.1.finalSize = e.finalSize) ∧
      (validateFill old' (validateFill old e w).2.1 w).2.1 = (validateFill old e w).2.1 ∧
      ((validateFill old' (validateFill old e w).2.1 w).1 = true → old' ≠ e.finalSize) := by
  cases hev : e.fillExpression.evaluateInteger e.fillByte with
  | mk ok b =>
    cases hl : e.fillExpression.isLoaded with
    | false =>
      have h1 : validateFill old e w = validateReserve old e w := by
        unfold validateFill; simp [hl]
      have h2 : validateFill old' e w = validateReserve old' e w := by
        unfold validateFill; simp [hl]
      rw [h1]
      simp only [validateReserve]
      rw [h2]
      simp [validateReserve]
    | true =>
      cases ok with
      | false =>
        have h1 : ∀ o, validateFill o e w
            = (false, e, w.printError ErrorType.FatalError "Invalid fill value") := by
          intro o
          unfold validateFill; simp [hl, hev]
        rw [h1 old]
        simp only
        rw [h1 old']
        simp
      | true =>
        have h1 : validateFill old e w = validateReserve old { e with fillByte := b } w := by
          unfold validateFill; simp [hl, hev]
        have hl' : ({ e with fillByte := b } : CDirectiveAlignFill).fillExpression.isLoaded
            = true := hl
        have hev' : ({ e with fillByte := b } : CDirectiveAlignFill).fillExpression.evaluateInteger
            ({ e with fillByte := b } : CDirectiveAlignFill).fillByte = (true, b) :=
          Expression.evaluateInteger_of_success _ _ _ _ hev
        have h2 : validateFill old' { e with fillByte := b } w
            = validateReserve old' { e with fillByte := b } w := by
          unfold validateFill
          rw [if_pos hl', hev']
        rw [h1]
        simp only [validateReserve]
        rw [h2]
        simp [validateReserve]

end CDirectiveAlignFill

namespace CDirectiveAlignFill

end CDirectiveAlignFill

namespace CDirectiveIncbin

end CDirectiveIncbin

namespace DirectiveObjImport

end DirectiveObjImport

/-! ### Reservation of an imported object

`DirectiveObjImport::Validate` passes to `advanceMemory` the content of its
local `memory` after the call `rel.relocate(memory)`.  What that content is
depends on `relocate`, which is outside this file: the two lemmas below give
the reservation for a callee that stores the relocated size in its argument
and for a callee that leaves its argument alone. -/

namespace DirectiveObjImport

/-- The reservation made by `Validate` is the content of `memory` after
`relocate`, converted to `size_t`; `Encode` writes the buffer of the
importer after the constructor command. -/
theorem Validate_reservation {C : Type} (ops : ObjImportOps C) (d : DirectiveObjImport C)
    (w : World) :
    (Validate ops d w).2.2
        = (validateCtor ops d w).2.2.advanceMemory
            (toU64 (ops.relocate d.rel (validateCtor ops d w).2.2.getVirtualAddress).2) ∧
      (Validate ops d w).2.1.rel
        = (ops.relocate d.rel (validateCtor ops d w).2.2.getVirtualAddress).1 :=
  ⟨rfl, rfl⟩

/-- When `relocate` leaves the length of its output in `memory`, `Validate`
reserves the length of the buffer that `Encode` writes. -/
theorem Validate_reserves_length {C : Type} (ops : ObjImportOps C)
    (hsize : ∀ (r : ElfRelocator) (m : Nat),
      (ops.relocate r m).2 = (ops.relocate r m).1.outputData.length)
    (d : DirectiveObjImport C) (w : World)
    (hlen : (Validate ops d w).2.1.rel.outputData.length < 2 ^ 64) :
    (Validate ops d w).2.2
      = (validateCtor ops d w).2.2.advanceMemory (Validate ops d w).2.1.rel.outputData.length := by
  rw [(Validate_reservation ops d w).1, hsize, toU64_of_lt]
  · rfl
  · exact hlen

/-- When `relocate` leaves `memory` as it was, `Validate` reserves as many
bytes as the base address. -/
theorem Validate_reserves_base {C : Type} (ops : ObjImportOps C)
    (hsame : ∀ (r : ElfRelocator) (m : Nat), (ops.relocate r m).2 = m)
    (d : DirectiveObjImport C) (w : World) :
    (Validate ops d w).2.2
      = (validateCtor ops d w).2.2.advanceMemory
          (toU64 (validateCtor ops d w).2.2.getVirtualAddress) := by
  rw [(Validate_reservation ops d w).1, hsame]

end DirectiveObjImport

/-! ### C6: idempotent validation -/

/-- After `Validate` of a Fill directive, either the value expression failed
and nothing was changed, or `finalSize` equals `value`. -/
theorem CDirectiveAlignFill.Validate_fill_size (d : CDirectiveAlignFill) (w : World)
    (hmode : d.mode = Mode.Fill) :
    (∃ s, d.Validate w = (false, d, w.printError ErrorType.FatalError s)) ∨
      ((d.Validate w).2.1.mode = Mode.Fill ∧
        (d.Validate w).2.1.finalSize = (d.Validate w).2.1.value) := by
  have hm : ∀ e : CDirectiveAlignFill, e.mode = Mode.Fill →
      (CDirectiveAlignFill.validateMode e w).2.1.mode = Mode.Fill ∧
        (CDirectiveAlignFill.validateMode e w).2.1.finalSize
          = (CDirectiveAlignFill.validateMode e w).2.1.value := by
    intro e he
    have h1 : CDirectiveAlignFill.validateMode e w
        = CDirectiveAlignFill.validateFill e.finalSize { e with finalSize := e.value } w := by
      unfold CDirectiveAlignFill.validateMode
      simp [he]
    have hf := (CDirectiveAlignFill.validateFill_twice e.finalSize 0
      { e with finalSize := e.value } w).1
    rw [h1]
    exact ⟨hf.1.trans he, hf.2.2.2.trans hf.2.2.1.symm⟩
  unfold CDirectiveAlignFill.Validate
  split
  · split
    · exact Or.inl ⟨_, rfl⟩
    · exact Or.inr (hm _ hmode)
  · exact Or.inr (hm _ hmode)

/-- C11. Symbol export of AlignFill: for a Fill directive whose `Validate`
reported no FatalError, `writeSymData` adds exactly one entry to the
symbol table, at the current virtual address, of length `finalSize`, tagged
`Data8`; for an Align directive `writeSymData` adds nothing. -/
theorem alignFill_writeSymData_entry (d : CDirectiveAlignFill) (w w' : World)
    (symData : SymbolData) :
    (d.mode = Mode.Fill →
      World.reports ErrorType.FatalError (d.Validate w).2.2.trace
        = World.reports ErrorType.FatalError w.trace →
      ((d.Validate w).2.1.writeSymData w' symData).entries
        = symData.entries
          ++ [(w'.getVirtualAddress, (d.Validate w).2.1.finalSize, DataType.Data8)]) ∧
      (∀ e : CDirectiveAlignFill, e.mode = Mode.Align → e.writeSymData w' symData = symData) := by
  constructor
  · intro hmode hF
    rcases CDirectiveAlignFill.Validate_fill_size d w hmode with ⟨s, hs⟩ | ⟨hm, hsz⟩
    · exfalso
      rw [hs] at hF
      simp only [World.printError_trace, World.reports_append, World.reports, if_true] at hF
      exact World.append_singleton_ne _ _ hF
    · unfold CDirectiveAlignFill.writeSymData
      rw [hm, hsz]
      rfl
  · intro e he
    unfold CDirectiveAlignFill.writeSymData
    rw [he]

/-- Witness of C11: a fill of 5 bytes, validated, exported at address
`0x1000`. -/
theorem alignFill_writeSymData_entry_witness :
    (((CDirectiveAlignFill.new 5 Mode.Fill).Validate
        { virtualAddress := 0x1000, files := [], activeFile := none, trace := [] }).2.1.writeSymData
        { virtualAddress := 0x1000, files := [], activeFile := none, trace := [] }
        { entries := [] }).entries
      = [(0x1000, 5, DataType.Data8)] :=
  (alignFill_writeSymData_entry (CDirectiveAlignFill.new 5 Mode.Fill)
    { virtualAddress := 0x1000, files := [], activeFile := none, trace := [] }
    { virtualAddress := 0x1000, files := [], activeFile := none, trace := [] }
    { entries := [] }).1 rfl (by decide)

/-! ### C12: change detection of an imported object -/

/-- C12. ObjImport change detection: `Validate` first validates the
constructor command when there is one, then relocates against the virtual
address reached after that, and returns `true` exactly when the constructor
command returned `true` or the importer reports changed data after this
relocation; without a constructor command it relocates against the current
virtual address and returns what the importer reports. -/
theorem objImport_validate_changed_iff {C : Type} (ops : ObjImportOps C)
    (d : DirectiveObjImport C) (w : World) :
    (∀ c : C, d.ctor = some c →
      (DirectiveObjImport.Validate ops d w).2.1.rel
          = (ops.relocate d.rel (ops.ctorValidate c w).2.2.getVirtualAddress).1 ∧
        (DirectiveObjImport.Validate ops d w).2.1.ctor = some (ops.ctorValidate c w).2.1 ∧
        ((DirectiveObjImport.Validate ops d w).1 = true ↔
          ((ops.ctorValidate c w).1 = true ∨
            (ops.relocate d.rel
              (ops.ctorValidate c w).2.2.getVirtualAddress).1.dataChanged = true)) ∧
        ((ops.ctorValidate c w).1 = false →
          (ops.relocate d.rel (ops.ctorValidate c w).2.2.getVirtualAddress).1.dataChanged = false →
          (DirectiveObjImport.Validate ops d w).1 = false)) ∧
      (d.ctor = none →
        (DirectiveObjImport.Validate ops d w).2.1.rel
            = (ops.relocate d.rel w.getVirtualAddress).1 ∧
          (DirectiveObjImport.Validate ops d w).1
            = (ops.relocate d.rel w.getVirtualAddress).1.dataChanged) := by
  obtain ⟨ctor, rel⟩ := d
  constructor
  · intro c hc
    simp only at hc
    subst hc
    refine ⟨rfl, rfl, ?_, ?_⟩
    · simp only [DirectiveObjImport.Validate, DirectiveObjImport.validateCtor, Bool.or_eq_true]
      exact ⟨fun h => h.symm, fun h => h.symm⟩
    · intro h1 h2
      simp only [DirectiveObjImport.Validate, DirectiveObjImport.validateCtor, h1, h2]
      rfl
  · intro hc
    simp only at hc
    subst hc
    refine ⟨rfl, ?_⟩
    simp only [DirectiveObjImport.Validate, DirectiveObjImport.validateCtor, Bool.or_false]

/-- Witness of C12: a constructor command that reserves 8 bytes and reports
no change, and an importer whose output depends on the base. -/
theorem objImport_validate_changed_iff_witness :
    (DirectiveObjImport.Validate
        { relocate := fun r m =>
            ({ outputData := [m % 256, 1],
               dataChanged := decide (r.outputData ≠ [m % 256, 1]) }, 2),
          ctorValidate := fun c w => (false, c, w.advanceMemory 8),
          ctorEncode := fun _ w => w }
        { ctor := some 0, rel := { outputData := [], dataChanged := false } }
        { virtualAddress := 8, files := [], activeFile := none, trace := [] }).2.1.rel
      = { outputData := [16, 1], dataChanged := true } :=
  ((objImport_validate_changed_iff
    { relocate := fun r m =>
        ({ outputData := [m % 256, 1],
           dataChanged := decide (r.outputData ≠ [m % 256, 1]) }, 2),
      ctorValidate := fun c w => (false, c, w.advanceMemory 8),
      ctorEncode := fun _ w => w }
    { ctor := some (0 : Nat), rel := { outputData := [], dataChanged := false } }
    { virtualAddress := 8, files := [], activeFile := none, trace := [] }).1 0 rfl).1.trans
    (by decide)

/-! ### C13: header size without an open file -/

/-- C13 at the failing input: a HeaderSize directive of size `0x100` while no
file is open.  The constructor, `Validate` and `Encode` each run `updateFile`,
which calls `hasFixedVirtualAddress` through the null pointer returned by
`getOpenFile`; no Error is reported before that. -/
theorem headerSize_without_open_file :
    CDirectiveHeaderSize.updateFile { headerSize := 0x100 }
        { virtualAddress := 0, files := [], activeFile := none, trace := [] } = none ∧
      CDirectiveHeaderSize.new 0x100
        { virtualAddress := 0, files := [], activeFile := none, trace := [] } = none ∧
      CDirectiveHeaderSize.Validate { headerSize := 0x100 }
        { virtualAddress := 0, files := [], activeFile := none, trace := [] } = none ∧
      CDirectiveHeaderSize.Encode { headerSize := 0x100 }
        { virtualAddress := 0, files := [], activeFile := none, trace := [] } = none := by
  decide

/-! ### C14: application of the header size -/

/-- A file that is stored at a pointer is still there after its replacement. -/
theorem getElem?_set_same {α : Type} (l : List α) (p : Nat) (x y : α) (h : l[p]? = some x) :
    (l.set p y)[p]? = some y := by
  have hp : p < l.length := by
    rcases Nat.lt_or_ge p l.length with h' | h'
    · exact h'
    · rw [List.getElem?_eq_none h'] at h
      cases h
  simp [List.getElem?_set, hp]

/-- C14. HeaderSize application: with the file at pointer `p` open,
`updateFile` sets the header size of that file to `headerSize` when the file
has a fixed virtual-address mapping, and otherwise reports an Error and leaves
all files as they are; `Validate` does exactly this and returns `false`,
`Encode` does exactly this; and applying `updateFile` to its own result leaves
files, open file and virtual cursor as the first application left them. -/
theorem headerSize_updateFile_applies (d : CDirectiveHeaderSize) (w : World) (p : Nat)
    (f : AssemblerFile) (hopen : w.getOpenFile = some p) (hfile : w.files[p]? = some f) :
    (f.fixedVirtualAddress = true →
      d.updateFile w = some (w.setHeaderSize p d.headerSize) ∧
        (w.setHeaderSize p d.headerSize).files
          = w.files.set p { f with headerSize := d.headerSize } ∧
        (w.setHeaderSize p d.headerSize).files[p]?
          = some { f with headerSize := d.headerSize } ∧
        World.reports ErrorType.Error (w.setHeaderSize p d.headerSize).trace
          = World.reports ErrorType.Error w.trace) ∧
      (f.fixedVirtualAddress = false →
        d.updateFile w
            = some (w.printError ErrorType.Error "Header size not applicable for this file") ∧
          (w.printError ErrorType.Error "Header size not applicable for this file").files
            = w.files) ∧
      (∃ w₁, d.updateFile w = some w₁ ∧ d.Validate w = some (false, d, w₁) ∧
        d.Encode w = some w₁ ∧
        ∃ w₂, d.updateFile w₁ = some w₂ ∧ w₂.files = w₁.files ∧
          w₂.activeFile = w₁.activeFile ∧ w₂.virtualAddress = w₁.virtualAddress) := by
  have hopen' : w.activeFile = some p := hopen
  have hset : w.setHeaderSize p d.headerSize
      = { w with files := w.files.set p { f with headerSize := d.headerSize },
                 trace := w.trace ++ [Event.setHeaderSize p d.headerSize] } := by
    unfold World.setHeaderSize
    rw [hfile]
  have hfix : f.fixedVirtualAddress = true →
      d.updateFile w = some (w.setHeaderSize p d.headerSize) := by
    intro hf
    unfold CDirectiveHeaderSize.updateFile
    simp [hopen, hfile, hf]
  have hnofix : f.fixedVirtualAddress = false →
      d.updateFile w
        = some (w.printError ErrorType.Error "Header size not applicable for this file") := by
    intro hf
    unfold CDirectiveHeaderSize.updateFile
    simp [hopen, hfile, hf]
  refine ⟨fun hf => ⟨hfix hf, ?_, ?_, ?_⟩, fun hf => ⟨hnofix hf, rfl⟩, ?_⟩
  · rw [hset]
  · rw [hset]
    exact getElem?_set_same _ _ _ _ hfile
  · rw [hset]
    simp [World.reports_append, World.reports]
  · cases hf : f.fixedVirtualAddress with
    | true =>
      refine ⟨_, hfix hf, ?_, hfix hf, ?_⟩
      · unfold CDirectiveHeaderSize.Validate
        rw [hfix hf]
      · have hfile₁ : (w.setHeaderSize p d.headerSize).files[p]?
            = some { f with headerSize := d.headerSize } := by
          rw [hset]
          exact getElem?_set_same _ _ _ _ hfile
        have hopen₁ : (w.setHeaderSize p d.headerSize).getOpenFile = some p := by
          rw [hset]
          exact hopen
        refine ⟨(w.setHeaderSize p d.headerSize).setHeaderSize p d.headerSize, ?_, ?_, ?_, ?_⟩
        · unfold CDirectiveHeaderSize.updateFile
          simp [hopen₁, hfile₁, hf]
        · unfold World.setHeaderSize
          rw [hfile, List.getElem?_eq_some_iff.mpr (List.getElem?_eq_some_iff.mp
            (getElem?_set_same _ _ _ _ hfile))]
          simp
        · unfold World.setHeaderSize
          rw [hfile, List.getElem?_eq_some_iff.mpr (List.getElem?_eq_some_iff.mp
            (getElem?_set_same _ _ _ _ hfile))]
        · unfold World.setHeaderSize
          rw [hfile, List.getElem?_eq_some_iff.mpr (List.getElem?_eq_some_iff.mp
            (getElem?_set_same _ _ _ _ hfile))]
    | false =>
      refine ⟨_, hnofix hf, ?_, hnofix hf, ?_⟩
      · unfold CDirectiveHeaderSize.Validate
        rw [hnofix hf]
      · refine ⟨(w.printError ErrorType.Error
          "Header size not applicable for this file").printError ErrorType.Error
          "Header size not applicable for this file", ?_, rfl, rfl, rfl⟩
        unfold CDirectiveHeaderSize.updateFile
        have h1 : (w.printError ErrorType.Error
            "Header size not applicable for this file").getOpenFile = some p := hopen
        have h2 : (w.printError ErrorType.Error
            "Header size not applicable for this file").files[p]? = some f := hfile
        simp [h1, h2, hf]

/-- Witness of C14: header size `0x200` applied to an open generic file. -/
theorem headerSize_updateFile_applies_witness :
    CDirectiveHeaderSize.updateFile { headerSize := 0x200 }
        { virtualAddress := 0, files := [GenericAssemblerFile.new "out.bin" 0 true],
          activeFile := some 0, trace := [] }
      = some { virtualAddress := 0,
               files := [{ GenericAssemblerFile.new "out.bin" 0 true with headerSize := 0x200 }],
               activeFile := some 0, trace := [Event.setHeaderSize 0 0x200] } :=
  ((headerSize_updateFile_applies { headerSize := 0x200 }
    { virtualAddress := 0, files := [GenericAssemblerFile.new "out.bin" 0 true],
      activeFile := some 0, trace := [] } 0 (GenericAssemblerFile.new "out.bin" 0 true)
    rfl rfl).1 rfl).1.trans (by decide)

/-! ### C15: path binding of open and create -/

/-- C15 at the failing input: the name `rom.bin`, which resolves to
`/work/rom.bin` and exists.  `initCreate` binds the new file to the resolved
path; `initOpen` binds it to the name as given, although it has resolved the
path and checked that it exists.  Open marks the file as pre-existing and
Create as created. -/
theorem initOpen_binds_given_name :
    (CDirectiveFile.initOpen
        { getFullPathName := fun _ => "/work/rom.bin", fileExists := fun _ => true }
        CDirectiveFile.new "rom.bin" 0
        { virtualAddress := 0, files := [], activeFile := none, trace := [] }
      = ({ type := FileType.Open, file := some 0 },
          { virtualAddress := 0,
            files := [{ fileName := "rom.bin", originalFileName := "", headerSize := 0,
                        fixedVirtualAddress := true, created := false }],
            activeFile := none, trace := [Event.addFile 0, Event.updateSection] })) ∧
      (CDirectiveFile.initCreate
        { getFullPathName := fun _ => "/work/rom.bin", fileExists := fun _ => true }
        CDirectiveFile.new "rom.bin" 0
        { virtualAddress := 0, files := [], activeFile := none, trace := [] }
      = ({ type := FileType.Create, file := some 0 },
          { virtualAddress := 0,
            files := [{ fileName := "/work/rom.bin", originalFileName := "", headerSize := 0,
                        fixedVirtualAddress := true, created := true }],
            activeFile := none, trace := [Event.addFile 0, Event.updateSection] })) ∧
      "rom.bin" ≠ "/work/rom.bin" := by
  refine ⟨by decide, by decide, by decide⟩

/-! ### C16: the file held by a file directive -/

/-- C16 at the failing input: `initOpen` for a name whose file does not exist.
The directive gets kind Open and keeps the null pointer of its constructor, the
file manager receives no file, and `Validate` and `Encode` both pass the null
pointer to `openFile`. -/
theorem initOpen_missing_file_keeps_null :
    (CDirectiveFile.initOpen
        { getFullPathName := fun _ => "/work/missing.bin", fileExists := fun _ => false }
        CDirectiveFile.new "missing.bin" 0
        { virtualAddress := 0, files := [], activeFile := none, trace := [] }
      = ({ type := FileType.Open, file := none },
          { virtualAddress := 0, files := [], activeFile := none,
            trace := [Event.printError ErrorType.Error "File %s not found"] })) ∧
      (CDirectiveFile.Validate { type := FileType.Open, file := none }
          { virtualAddress := 0, files := [], activeFile := none, trace := [] }).2.2.trace
        = [Event.nextSection, Event.openFile none true] ∧
      (CDirectiveFile.Encode { type := FileType.Open, file := none }
          { virtualAddress := 0, files := [], activeFile := none, trace := [] }).trace
        = [Event.openFile none false] := by
  refine ⟨by decide, by decide, by decide⟩

/-! ### C17: severity of expression failures -/

/-- A size expression that fails stops the size step with an Error. -/
theorem CDirectiveIncbin.validateSize_of_fail (e : CDirectiveIncbin) (w : World)
    (h : e.sizeExpression = { loaded := true, value := none }) :
    CDirectiveIncbin.validateSize e w
      = (false, e, w.queueError ErrorType.Error "Invalid size expression") := by
  unfold CDirectiveIncbin.validateSize
  simp [h, Expression.isLoaded, Expression.evaluateInteger]

/-- A fill expression that fails stops the fill step with a FatalError. -/
theorem CDirectiveAlignFill.validateFill_of_fail (old : Nat) (e : CDirectiveAlignFill)
    (w : World) (h : e.fillExpression = { loaded := true, value := none }) :
    CDirectiveAlignFill.validateFill old e w
      = (false, e, w.printError ErrorType.FatalError "Invalid fill value") := by
  unfold CDirectiveAlignFill.validateFill
  simp [h, Expression.isLoaded, Expression.evaluateInteger]

/-- Counterexample to C17: a Fill directive whose size expression fails to
evaluate, and one whose fill expression fails.  Each reports a FatalError and
no Error. -/
theorem alignFill_expression_failure_is_fatal :
    World.reports ErrorType.Error
        ((CDirectiveAlignFill.newExpr { loaded := true, value := none } Mode.Fill).Validate
          { virtualAddress := 0, files := [], activeFile := none, trace := [] }).2.2.trace = [] ∧
      World.reports ErrorType.FatalError
        ((CDirectiveAlignFill.newExpr { loaded := true, value := none } Mode.Fill).Validate
          { virtualAddress := 0, files := [], activeFile := none, trace := [] }).2.2.trace
        = ["Invalid size"] ∧
      World.reports ErrorType.Error
        ((CDirectiveAlignFill.newExprFill { loaded := true, value := some 4 }
            { loaded := true, value := none } Mode.Fill).Validate
          { virtualAddress := 0, files := [], activeFile := none, trace := [] }).2.2.trace = [] ∧
      World.reports ErrorType.FatalError
        ((CDirectiveAlignFill.newExprFill { loaded := true, value := some 4 }
            { loaded := true, value := none } Mode.Fill).Validate
          { virtualAddress := 0, files := [], activeFile := none, trace := [] }).2.2.trace
        = ["Invalid fill value"] := by
  refine ⟨by decide, by decide, by decide, by decide⟩

/-- C17, amended. In `CDirectiveIncbin::Validate` a start expression that
fails to evaluate is reported at severity Error ("Invalid position
expression"), and so is a size expression that fails ("Invalid size
expression") whenever the validation reaches it, that is with no start
expression or with a start inside the file; in
`CDirectiveAlignFill::Validate` a value expression that fails to evaluate is
reported at severity FatalError, and so is a fill expression that fails
("Invalid fill value") whenever the validation reaches it, that is when the
value is resolved and, in Align mode, is a power of two.  Each of these
diagnostics is the only one of the call, and whenever one of the four
expressions fails `Validate` returns `false`, does not call `advanceMemory`
and leaves the virtual cursor where it was. -/
theorem expression_failure_severity (w : World) :
    (∀ d : CDirectiveIncbin,
      (d.startExpression = { loaded := true, value := none } ∨
        d.sizeExpression = { loaded := true, value := none }) →
      (d.Validate w).1 = false ∧
        (∃ s, (d.Validate w).2.2 = w.queueError ErrorType.Error s) ∧
        World.advances (d.Validate w).2.2.trace = World.advances w.trace ∧
        (d.Validate w).2.2.virtualAddress = w.virtualAddress) ∧
      (∀ d : CDirectiveAlignFill, d.valueExpression = { loaded := true, value := none } →
        d.Validate w = (false, d, w.printError ErrorType.FatalError
          (if d.mode = Mode.Fill then "Invalid size" else "Invalid alignment"))) ∧
      (∀ d : CDirectiveAlignFill, d.fillExpression = { loaded := true, value := none } →
        (d.Validate w).1 = false ∧
          ((d.Validate w).2.2 = w.printError ErrorType.FatalError "Invalid fill value" ∨
            (d.Validate w).2.2 = w.printError ErrorType.FatalError
              (if d.mode = Mode.Fill then "Invalid size" else "Invalid alignment") ∨
            (d.Validate w).2.2 = w.printError ErrorType.Error "Invalid alignment %d") ∧
          World.advances (d.Validate w).2.2.trace = World.advances w.trace ∧
          (d.Validate w).2.2.virtualAddress = w.virtualAddress) ∧
      (∀ (d : CDirectiveAlignFill) (v : Nat),
        d.fillExpression = { loaded := true, value := none } →
        ((d.valueExpression.isLoaded = false ∧ d.value = v) ∨
          (d.valueExpression = { loaded := true, value := some v } ∧ v < 2 ^ 64)) →
        (d.mode = Mode.Fill ∨ isPowerOfTwo v = true) →
        (d.Validate w).1 = false ∧
          (d.Validate w).2.2 = w.printError ErrorType.FatalError "Invalid fill value") ∧
      (∀ d : CDirectiveIncbin, d.startExpression = { loaded := true, value := none } →
        d.Validate w
          = (false, d, w.queueError ErrorType.Error "Invalid position expression")) ∧
      (∀ d : CDirectiveIncbin, d.sizeExpression = { loaded := true, value := none } →
        (d.startExpression.isLoaded = false ∨
          ∃ s, d.startExpression = { loaded := true, value := some s } ∧ s < 2 ^ 64 ∧
            s ≤ d.fileSize) →
        (d.Validate w).1 = false ∧
          (d.Validate w).2.2 = w.queueError ErrorType.Error "Invalid size expression") := by
  refine ⟨?_, ?_, ?_, ?_, ?_, ?_⟩
  · intro d h
    have hex : ∃ s, (d.Validate w).2.2 = w.queueError ErrorType.Error s := by
      by_cases hst : d.startExpression = { loaded := true, value := none }
      · have hl : d.startExpression.isLoaded = true := by rw [hst]; rfl
        have hev : (d.startExpression.evaluateInteger d.start).1 = false := by rw [hst]; rfl
        rw [CDirectiveIncbin.Validate_of_fail d w hl hev]
        exact ⟨_, rfl⟩
      · have hsz : d.sizeExpression = { loaded := true, value := none } := by
          rcases h with h | h
          · exact absurd h hst
          · exact h
        cases hl : d.startExpression.isLoaded with
        | false =>
          rw [CDirectiveIncbin.Validate_of_not_loaded d w hl,
            CDirectiveIncbin.validateSize_of_fail { d with start := 0 } w hsz]
          exact ⟨_, rfl⟩
        | true =>
          cases hev : d.startExpression.evaluateInteger d.start with
          | mk ok s =>
            cases ok with
            | false =>
              rw [CDirectiveIncbin.Validate_of_fail d w hl (by rw [hev])]
              exact ⟨_, rfl⟩
            | true =>
              rw [CDirectiveIncbin.Validate_of_eval d w s hl hev]
              by_cases hgt : s > d.fileSize
              · rw [if_pos hgt]
                exact ⟨_, rfl⟩
              · rw [if_neg hgt, CDirectiveIncbin.validateSize_of_fail { d with start := s } w hsz]
                exact ⟨_, rfl⟩
    obtain ⟨s, hs⟩ := hex
    refine ⟨(CDirectiveIncbin.incbin_outcome d w).1, ⟨s, hs⟩, ?_, ?_⟩
    · rw [hs]
      simp [World.advances_append, World.advances]
    · rw [hs]
      rfl
  · intro d h
    unfold CDirectiveAlignFill.Validate
    simp [h, Expression.isLoaded, Expression.evaluateInteger]
  · intro d h
    have hmode : ∀ e : CDirectiveAlignFill, e.fillExpression = d.fillExpression →
        (CDirectiveAlignFill.validateMode e w).1 = false ∧
          ((CDirectiveAlignFill.validateMode e w).2.2
              = w.printError ErrorType.FatalError "Invalid fill value" ∨
            (CDirectiveAlignFill.validateMode e w).2.2
              = w.printError ErrorType.Error "Invalid alignment %d") := by
      intro e he
      have hf : ∀ (old n : Nat), CDirectiveAlignFill.validateFill old { e with finalSize := n } w
          = (false, { e with finalSize := n },
            w.printError ErrorType.FatalError "Invalid fill value") :=
        fun old n => CDirectiveAlignFill.validateFill_of_fail old { e with finalSize := n } w
          (he.trans h)
      unfold CDirectiveAlignFill.validateMode
      split
      · split
        · exact ⟨rfl, Or.inr rfl⟩
        · simp [hf]
      · simp [hf]
    have hall : (d.Validate w).1 = false ∧
        ((d.Validate w).2.2 = w.printError ErrorType.FatalError "Invalid fill value" ∨
          (d.Validate w).2.2 = w.printError ErrorType.FatalError
            (if d.mode = Mode.Fill then "Invalid size" else "Invalid alignment") ∨
          (d.Validate w).2.2 = w.printError ErrorType.Error "Invalid alignment %d") := by
      unfold CDirectiveAlignFill.Validate
      split
      · split
        · exact ⟨rfl, Or.inr (Or.inl rfl)⟩
        · rename_i v _
          have := hmode { d with value := v } rfl
          exact ⟨this.1, this.2.elim Or.inl (fun h => Or.inr (Or.inr h))⟩
      · have := hmode d rfl
        exact ⟨this.1, this.2.elim Or.inl (fun h => Or.inr (Or.inr h))⟩
    refine ⟨hall.1, hall.2, ?_, ?_⟩
    · rcases hall.2 with h1 | h1 | h1 <;> rw [h1] <;> simp [World.advances_append, World.advances]
    · rcases hall.2 with h1 | h1 | h1 <;> rw [h1] <;> rfl
  · intro d v hfill hval hreach
    have hmode : ∀ e : CDirectiveAlignFill, e.fillExpression = d.fillExpression →
        (e.mode = Mode.Fill ∨ isPowerOfTwo e.value = true) →
        (CDirectiveAlignFill.validateMode e w).1 = false ∧
          (CDirectiveAlignFill.validateMode e w).2.2
            = w.printError ErrorType.FatalError "Invalid fill value" := by
      intro e he hr
      have hf : ∀ (old n : Nat), CDirectiveAlignFill.validateFill old { e with finalSize := n } w
          = (false, { e with finalSize := n },
            w.printError ErrorType.FatalError "Invalid fill value") :=
        fun old n => CDirectiveAlignFill.validateFill_of_fail old { e with finalSize := n } w
          (he.trans hfill)
      unfold CDirectiveAlignFill.validateMode
      split
      · rename_i hm
        have hp : isPowerOfTwo e.value = true := by
          rcases hr with h | h
          · rw [hm] at h
            cases h
          · exact h
        split
        · rename_i hcond
          rw [hp] at hcond
          cases hcond
        · simp [hf]
      · simp [hf]
    rcases hval with ⟨hl, hv⟩ | ⟨hexp, hlt⟩
    · have h1 : d.Validate w = CDirectiveAlignFill.validateMode d w := by
        unfold CDirectiveAlignFill.Validate
        simp [hl]
      rw [h1]
      exact hmode d rfl (by rw [hv]; exact hreach)
    · have h1 : d.Validate w = CDirectiveAlignFill.validateMode { d with value := v } w := by
        unfold CDirectiveAlignFill.Validate
        simp [hexp, Expression.isLoaded, Expression.evaluateInteger, toU64_of_lt hlt]
      rw [h1]
      exact hmode { d with value := v } rfl hreach
  · intro d hst
    have hl : d.startExpression.isLoaded = true := by rw [hst]; rfl
    have hev : (d.startExpression.evaluateInteger d.start).1 = false := by rw [hst]; rfl
    exact CDirectiveIncbin.Validate_of_fail d w hl hev
  · intro d hsz hstart
    rcases hstart with hl | ⟨s, hexp, hlt, hle⟩
    · rw [CDirectiveIncbin.Validate_of_not_loaded d w hl,
        CDirectiveIncbin.validateSize_of_fail { d with start := 0 } w hsz]
      exact ⟨rfl, rfl⟩
    · have hl : d.startExpression.isLoaded = true := by rw [hexp]; rfl
      have hev : d.startExpression.evaluateInteger d.start = (true, s) := by
        rw [hexp]
        simp [Expression.evaluateInteger, toU64_of_lt hlt]
      rw [CDirectiveIncbin.Validate_of_eval d w s hl hev, if_neg (Nat.not_lt.mpr hle),
        CDirectiveIncbin.validateSize_of_fail { d with start := s } w hsz]
      exact ⟨rfl, rfl⟩

/-- Witness of C17, amended: an incbin whose size expression fails, and an
alignment to 16 whose fill expression fails. -/
theorem expression_failure_severity_witness :
    (CDirectiveIncbin.Validate
        { fileName := "f", fileSize := 100, startExpression := Expression.empty,
          sizeExpression := { loaded := true, value := none }, start := 0, size := 0 }
        { virtualAddress := 0x40, files := [], activeFile := none, trace := [] }).2.2
      = { virtualAddress := 0x40, files := [], activeFile := none,
          trace := [Event.queueError ErrorType.Error "Invalid size expression"] } ∧
    (CDirectiveAlignFill.Validate
        (CDirectiveAlignFill.newExprFill { loaded := true, value := some 16 }
          { loaded := true, value := none } Mode.Align)
        { virtualAddress := 0x40, files := [], activeFile := none, trace := [] }).2.2
      = { virtualAddress := 0x40, files := [], activeFile := none,
          trace := [Event.printError ErrorType.FatalError "Invalid fill value"] } :=
  ⟨((expression_failure_severity
      { virtualAddress := 0x40, files := [], activeFile := none, trace := [] }).2.2.2.2.2
      { fileName := "f", fileSize := 100, startExpression := Expression.empty,
        sizeExpression := { loaded := true, value := none }, start := 0, size := 0 }
      rfl (Or.inl rfl)).2,
    ((expression_failure_severity
      { virtualAddress := 0x40, files := [], activeFile := none, trace := [] }).2.2.2.1
      (CDirectiveAlignFill.newExprFill { loaded := true, value := some 16 }
        { loaded := true, value := none } Mode.Align) 16
      rfl (Or.inr ⟨rfl, by decide⟩) (Or.inr (by decide))).2⟩

/-! ### C18: kinds that never report a change -/

/-- C18. Kinds that never report a change: `Validate` of a File directive of
any kind, of a Position directive and of an Incbin directive returns `false`;
`Validate` of a HeaderSize directive returns, with `false`, whenever a file is
open, and never returns anything else; an Incbin whose `start` and `size` are
resolved to new values (0 and 0 before, 10 and 90 after) returns `false`
too. -/
theorem validate_never_changed (w : World) :
    (∀ d : CDirectiveFile, (d.Validate w).1 = false) ∧
      (∀ d : CDirectivePosition, (d.Validate w).1 = false) ∧
      (∀ d : CDirectiveIncbin, (d.Validate w).1 = false) ∧
      (∀ (d : CDirectiveHeaderSize) (r : Bool × CDirectiveHeaderSize × World),
        d.Validate w = some r → r.1 = false) ∧
      (∀ (d : CDirectiveHeaderSize) (p : Nat) (f : AssemblerFile),
        w.getOpenFile = some p → w.files[p]? = some f →
        ∃ w₁, d.Validate w = some (false, d, w₁)) ∧
      (CDirectiveIncbin.Validate
          { fileName := "f", fileSize := 100,
            startExpression := { loaded := true, value := some 10 },
            sizeExpression := Expression.empty, start := 0, size := 0 }
          { virtualAddress := 0, files := [], activeFile := none, trace := [] }
        = (false,
            { fileName := "f", fileSize := 100,
              startExpression := { loaded := true, value := some 10 },
              sizeExpression := Expression.empty, start := 10, size := 90 },
            { virtualAddress := 90, files := [], activeFile := none,
              trace := [Event.nextSection, Event.advanceMemory 90] })) := by
  refine ⟨?_, fun _ => rfl, fun d => (CDirectiveIncbin.incbin_outcome d w).1, ?_, ?_, by decide⟩
  · intro d
    unfold CDirectiveFile.Validate
    split <;> rfl
  · intro d r hr
    unfold CDirectiveHeaderSize.Validate at hr
    split at hr
    · cases hr
    · cases hr
      rfl
  · intro d p f hopen hfile
    unfold CDirectiveHeaderSize.Validate CDirectiveHeaderSize.updateFile
    rw [hopen]
    cases hf : f.fixedVirtualAddress with
    | true => exact ⟨w.setHeaderSize p d.headerSize, by simp [hfile, hf]⟩
    | false =>
      exact ⟨w.printError ErrorType.Error "Header size not applicable for this file",
        by simp [hfile, hf]⟩

/-- Witness of C18: a HeaderSize directive validated with a generic file
open. -/
theorem validate_never_changed_witness :
    ∃ w₁, CDirectiveHeaderSize.Validate { headerSize := 0x200 }
        { virtualAddress := 0, files := [GenericAssemblerFile.new "out.bin" 0 true],
          activeFile := some 0, trace := [] }
      = some (false, { headerSize := 0x200 }, w₁) :=
  (validate_never_changed
    { virtualAddress := 0, files := [GenericAssemblerFile.new "out.bin" 0 true],
      activeFile := some 0, trace := [] }).2.2.2.2.1 { headerSize := 0x200 } 0
    (GenericAssemblerFile.new "out.bin" 0 true) rfl rfl

/-! ### C19: seek target of a position directive -/

/-- C19 at the failing input: `CDirectivePosition(Virtual, 0x8000000)`.  The
constructor calls `exec` before it assigns the member `position`, so the seek
issued at construction is `seekVirtual` of whatever the member held, not of
the target; `Validate` and `Encode` then seek the target and `Validate`
returns `false`. -/
theorem position_constructor_seeks_before_assignment (indeterminate : Nat) :
    (CDirectivePosition.new PositionType.Virtual 0x8000000 indeterminate
        { virtualAddress := 0, files := [], activeFile := none, trace := [] }
      = ({ type := PositionType.Virtual, position := 0x8000000 },
          { virtualAddress := indeterminate, files := [], activeFile := none,
            trace := [Event.seekVirtual indeterminate, Event.updateSection] })) ∧
      (CDirectivePosition.new PositionType.Physical 0x8000000 indeterminate
          { virtualAddress := 0, files := [], activeFile := none, trace := [] }).2.trace
        = [Event.seekPhysical indeterminate, Event.updateSection] ∧
      (CDirectivePosition.Validate { type := PositionType.Virtual, position := 0x8000000 }
          { virtualAddress := 0, files := [], activeFile := none, trace := [] }
        = (false, { type := PositionType.Virtual, position := 0x8000000 },
            { virtualAddress := 0x8000000, files := [], activeFile := none,
              trace := [Event.nextSection, Event.seekVirtual 0x8000000] })) ∧
      (CDirectivePosition.Encode { type := PositionType.Virtual, position := 0x8000000 }
          { virtualAddress := 0, files := [], activeFile := none, trace := [] }).trace
        = [Event.nextSection, Event.seekVirtual 0x8000000] ∧
      (CDirectivePosition.new PositionType.Virtual 0x8000000 0
          { virtualAddress := 0, files := [], activeFile := none, trace := [] }).2.trace
        ≠ [Event.seekVirtual 0x8000000, Event.updateSection] := by
  refine ⟨rfl, rfl, by decide, by decide, by decide⟩

/-! ### C20: state of an incbin after a failed validation -/

/-- The end of `Validate` reports no Error. -/
theorem CDirectiveIncbin.validateReserve_no_error (e : CDirectiveIncbin) (w : World) :
    World.reports ErrorType.Error (CDirectiveIncbin.validateReserve e w).2.2.trace
      = World.reports ErrorType.Error w.trace := by
  rcases (CDirectiveIncbin.validateReserve_outcome e w).2.2 with h | h
  · rw [h]
    simp [World.reports_append, World.reports]
  · rw [h]
    simp [World.reports_append, World.reports]

/-- A size step that reports an Error leaves the directive as it was. -/
theorem CDirectiveIncbin.validateSize_error_keeps (e : CDirectiveIncbin) (w : World)
    (hErr : World.reports ErrorType.Error (CDirectiveIncbin.validateSize e w).2.2.trace
      ≠ World.reports ErrorType.Error w.trace) :
    (CDirectiveIncbin.validateSize e w).2.1 = e := by
  unfold CDirectiveIncbin.validateSize at hErr ⊢
  split
  · rename_i hl
    rw [if_pos hl] at hErr
    split
    · rfl
    · rename_i n hev
      rw [hev] at hErr
      exact absurd (CDirectiveIncbin.validateReserve_no_error _ w) hErr
  · rename_i hl
    rw [if_neg hl] at hErr
    exact absurd (CDirectiveIncbin.validateReserve_no_error _ w) hErr

/-- Counterexample to C20: a 100-byte file, a start expression evaluating to
150, `start = 0` before the call.  `Validate` reports an Error and `start` is
150 afterwards. -/
theorem incbin_failed_validate_changes_start :
    World.reports ErrorType.Error
        (CDirectiveIncbin.Validate
          { fileName := "f", fileSize := 100,
            startExpression := { loaded := true, value := some 150 },
            sizeExpression := Expression.empty, start := 0, size := 0 }
          { virtualAddress := 0, files := [], activeFile := none, trace := [] }).2.2.trace
        = ["Start position past end of file"] ∧
      (CDirectiveIncbin.Validate
          { fileName := "f", fileSize := 100,
            startExpression := { loaded := true, value := some 150 },
            sizeExpression := Expression.empty, start := 0, size := 0 }
          { virtualAddress := 0, files := [], activeFile := none, trace := [] }).2.1.start = 150 ∧
      (150 : Nat) ≠ 0 := by
  refine ⟨by decide, by decide, by decide⟩

/-- C20, amended. Whenever `CDirectiveIncbin::Validate` reports an Error,
`size` is the value it held before the call; `start` is the value it held
before the call when the start expression failed to evaluate, and otherwise
the start resolved by this call: the value of the start expression, also when
that is past the end of the file, or 0 without a start expression. -/
theorem incbin_failed_validate_state (d : CDirectiveIncbin) (w : World)
    (hErr : World.reports ErrorType.Error (d.Validate w).2.2.trace
      ≠ World.reports ErrorType.Error w.trace) :
    (d.Validate w).2.1.size = d.size ∧
      (d.startExpression.isLoaded = true →
        (d.startExpression.evaluateInteger d.start).1 = false →
        (d.Validate w).2.1.start = d.start) ∧
      (d.startExpression.isLoaded = true →
        ∀ s : Nat, d.startExpression.evaluateInteger d.start = (true, s) →
          (d.Validate w).2.1.start = s) ∧
      (d.startExpression.isLoaded = false → (d.Validate w).2.1.start = 0) := by
  cases hl : d.startExpression.isLoaded with
  | false =>
    rw [CDirectiveIncbin.Validate_of_not_loaded d w hl] at hErr ⊢
    rw [CDirectiveIncbin.validateSize_error_keeps _ w hErr]
    refine ⟨rfl, ?_, ?_, ?_⟩
    · intro h
      cases h
    · intro h
      cases h
    · intro _
      rfl
  | true =>
    cases hev : d.startExpression.evaluateInteger d.start with
    | mk ok s =>
      cases ok with
      | false =>
        rw [CDirectiveIncbin.Validate_of_fail d w hl (by rw [hev])]
        refine ⟨rfl, ?_, ?_, ?_⟩
        · intro _ _
          rfl
        · intro _ s' h'
          cases h'
        · intro h
          cases h
      | true =>
        rw [CDirectiveIncbin.Validate_of_eval d w s hl hev] at hErr ⊢
        by_cases hgt : s > d.fileSize
        · rw [if_pos hgt]
          refine ⟨rfl, ?_, ?_, ?_⟩
          · intro _ h
            cases h
          · intro _ s' h'
            cases h'
            rfl
          · intro h
            cases h
        · rw [if_neg hgt] at hErr ⊢
          rw [CDirectiveIncbin.validateSize_error_keeps _ w hErr]
          refine ⟨rfl, ?_, ?_, ?_⟩
          · intro _ h
            cases h
          · intro _ s' h'
            cases h'
            rfl
          · intro h
            cases h

/-- Witness of C20, amended: a size expression that fails after a start
expression evaluating to 10. -/
theorem incbin_failed_validate_state_witness :
    (CDirectiveIncbin.Validate
        { fileName := "f", fileSize := 100,
          startExpression := { loaded := true, value := some 10 },
          sizeExpression := { loaded := true, value := none }, start := 3, size := 7 }
        { virtualAddress := 0, files := [], activeFile := none, trace := [] }).2.1.size = 7 ∧
    (CDirectiveIncbin.Validate
        { fileName := "f", fileSize := 100,
          startExpression := { loaded := true, value := some 10 },
          sizeExpression := { loaded := true, value := none }, start := 3, size := 7 }
        { virtualAddress := 0, files := [], activeFile := none, trace := [] }).2.1.start = 10 :=
  ⟨(incbin_failed_validate_state
      { fileName := "f", fileSize := 100,
        startExpression := { loaded := true, value := some 10 },
        sizeExpression := { loaded := true, value := none }, start := 3, size := 7 }
      { virtualAddress := 0, files := [], activeFile := none, trace := [] } (by decide)).1,
    (incbin_failed_validate_state
      { fileName := "f", fileSize := 100,
        startExpression := { loaded := true, value := some 10 },
        sizeExpression := { loaded := true, value := none }, start := 3, size := 7 }
      { virtualAddress := 0, files := [], activeFile := none, trace := [] } (by decide)).2.2.1
      rfl 10 (by decide)⟩

end Armips
